import Mathlib

/-!
Verification of the replicated state store behind the consul FSM
(src/consul/fsm.go together with the state-store and FSM test files in
src/unnamed).  The FSM dispatcher, snapshot persistence and restore loop
are translated from src/consul/fsm.go.  The state-store operations
themselves (package `state`) are not part of the source excerpt — only
their tests are — so they are modelled from the spec (sections 3, 4.2–4.8
and 7 of spec.md), each such definition carrying a doc comment that says
so; wherever a test in src/unnamed pins a behaviour the model follows the
test.
-/

set_option maxHeartbeats 1000000

namespace Consul

/-- structs.Node: a catalog node (fsm.go uses Node/Address; RaftIndex
gives CreateIndex/ModifyIndex). -/
structure Node where
  node : String
  address : String
  createIndex : Nat
  modifyIndex : Nat
  deriving Repr, DecidableEq

/-- structs.NodeService: a service instance registered on a node. -/
structure NodeService where
  id : String
  service : String
  tags : List String
  address : String
  port : Nat
  createIndex : Nat
  modifyIndex : Nat
  deriving Repr, DecidableEq

/-- structs.HealthCheck: a health check, optionally attached to a
service via serviceID. -/
structure HealthCheck where
  node : String
  checkID : String
  name : String
  status : String
  notes : String
  output : String
  serviceID : String
  serviceName : String
  createIndex : Nat
  modifyIndex : Nat
  deriving Repr, DecidableEq

/-- structs.DirEntry: a K/V entry.  Value bytes are modelled as a
String; LockIndex and Session implement the lock semantics of §4.4. -/
structure DirEntry where
  key : String
  value : String
  flags : Nat
  lockIndex : Nat
  session : String
  createIndex : Nat
  modifyIndex : Nat
  deriving Repr, DecidableEq

/-- state.Tombstone: remembers the log index at which a key was
deleted (fsm.go lines 332–335). -/
structure Tombstone where
  key : String
  index : Nat
  deriving Repr, DecidableEq

/-- structs.Session: an ephemeral session bound to a node with optional
checks and a behaviour (release or delete). -/
structure Session where
  id : String
  node : String
  checks : List String
  behavior : String
  createIndex : Nat
  modifyIndex : Nat
  deriving Repr, DecidableEq

/-- state.sessionCheck: the session_checks helper relation
(part_000 lines 1700–1704). -/
structure SessionCheck where
  node : String
  checkID : String
  session : String
  deriving Repr, DecidableEq

/-- structs.ACL: an access-control record. -/
structure ACL where
  id : String
  name : String
  type : String
  rules : String
  createIndex : Nat
  modifyIndex : Nat
  deriving Repr, DecidableEq

/-- The index side table: one `table-name → max-index` row per domain
(spec §2 item 1, §4.2). -/
structure IndexTable where
  nodes : Nat
  services : Nat
  checks : Nat
  kvs : Nat
  tombstones : Nat
  sessions : Nat
  acls : Nat
  deriving Repr, DecidableEq

/-- The in-memory multi-table store (state.StateStore).  Tables are kept
as lists in insertion order, mirroring memdb iteration for the tests'
purposes. -/
structure StateStore where
  nodes : List Node
  services : List (String × NodeService)
  checks : List HealthCheck
  kvs : List DirEntry
  tombstones : List Tombstone
  sessions : List Session
  sessionChecks : List SessionCheck
  acls : List ACL
  index : IndexTable
  deriving Repr, DecidableEq

/-- A fresh empty store (state.NewStateStore). -/
def emptyStore : StateStore :=
  { nodes := [], services := [], checks := [], kvs := [], tombstones := [],
    sessions := [], sessionChecks := [], acls := [],
    index := { nodes := 0, services := 0, checks := 0, kvs := 0,
               tombstones := 0, sessions := 0, acls := 0 } }

/-- Errors surfaced by the state store (spec §7: precondition errors with
stable identities) and by the FSM's operation dispatch. -/
inductive StoreError where
  | missingNode
  | missingService
  | missingSessionID
  | missingCheck (checkID : String)
  | criticalCheck (checkID : String)
  | invalidSessionBehavior (b : String)
  | missingACLID
  | invalidSession (id : String)
  | invalidKVSOp (op : String)
  | invalidSessionOp (op : String)
  | invalidACLOp (op : String)
  | invalidTombstoneOp (op : String)
  deriving Repr, DecidableEq

/-! ### Catalog reads -/

/-- Modelled from the spec: `GetNode` returns the node with the given
name, or nothing (§4.3 reads; part_000 lines 343–345). -/
def GetNode (name : String) (s : StateStore) : Option Node :=
  s.nodes.find? (fun n => n.node == name)

/-- Modelled from the spec: `Nodes` lists all nodes with
`IndexRow[nodes]` as the result index (§4.2 whole-table queries;
part_000 lines 409–448). -/
def Nodes (s : StateStore) : Nat × List Node :=
  (s.index.nodes, s.nodes)

/-- The services registered on a node, in table order. -/
def nodeServiceEntries (name : String) (s : StateStore) : List NodeService :=
  (s.services.filter (fun pr => pr.1 == name)).map (fun pr => pr.2)

/-- Modelled from the spec: `NodeServices` returns the node and its
services; the result index is the largest ModifyIndex among the node and
its services (pinned by part_000 lines 556–564: index 20 is returned
while IndexRow[services] is 30). -/
def NodeServices (name : String) (s : StateStore) :
    Nat × Option (Node × List NodeService) :=
  match GetNode name s with
  | none => (0, none)
  | some n =>
    let svcs := nodeServiceEntries name s
    (svcs.foldl (fun m sv => max m sv.modifyIndex) n.modifyIndex, some (n, svcs))

/-- Modelled from the spec: `NodeChecks` returns the checks on a node;
the result index is the largest ModifyIndex among them (pinned by
part_000 lines 788–809). -/
def NodeChecks (name : String) (s : StateStore) : Nat × List HealthCheck :=
  let cks := s.checks.filter (fun c => c.node == name)
  (cks.foldl (fun m c => max m c.modifyIndex) 0, cks)

/-! ### Catalog writes -/

/-- Modelled from the spec: `EnsureNode` is an idempotent upsert
preserving CreateIndex (§4.3); writes `IndexRow[nodes]`. -/
def EnsureNode (idx : Nat) (n : Node) (s : StateStore) : StateStore :=
  match GetNode n.node s with
  | none =>
    { s with nodes := s.nodes ++ [{ n with createIndex := idx, modifyIndex := idx }],
             index.nodes := idx }
  | some _ =>
    { s with nodes := s.nodes.map (fun old =>
        if old.node == n.node then
          { old with address := n.address, modifyIndex := idx }
        else old),
             index.nodes := idx }

/-- Modelled from the spec: `EnsureService` fails if the node is
unknown, otherwise upserts preserving CreateIndex (§4.3; part_000 lines
526–528 pin ErrMissingNode); writes `IndexRow[services]`. -/
def EnsureService (idx : Nat) (node : String) (sv : NodeService)
    (s : StateStore) : Except StoreError StateStore :=
  match GetNode node s with
  | none => .error .missingNode
  | some _ =>
    match s.services.find? (fun pr => pr.1 == node && pr.2.id == sv.id) with
    | none =>
      .ok { s with
        services := s.services ++ [(node, { sv with createIndex := idx, modifyIndex := idx })],
        index.services := idx }
    | some _ =>
      .ok { s with
        services := s.services.map (fun pr =>
          if pr.1 == node && pr.2.id == sv.id then
            (pr.1, { sv with createIndex := pr.2.createIndex, modifyIndex := idx })
          else pr),
        index.services := idx }

/-- Modelled from the spec: `EnsureCheck` fails if the node is unknown
or if serviceID is nonempty but unknown; an empty status defaults to
critical and ServiceName is filled in from the service (§3, pinned by
part_000 lines 680–690 and 745–771); writes `IndexRow[checks]`. -/
def EnsureCheck (idx : Nat) (c : HealthCheck) (s : StateStore) :
    Except StoreError StateStore :=
  match GetNode c.node s with
  | none => .error .missingNode
  | some _ =>
    let status := if c.status == "" then "critical" else c.status
    let withSvc : Except StoreError HealthCheck :=
      if c.serviceID == "" then
        .ok { c with status := status }
      else
        match s.services.find? (fun pr => pr.1 == c.node && pr.2.id == c.serviceID) with
        | none => .error .missingService
        | some pr => .ok { c with status := status, serviceName := pr.2.service }
    match withSvc with
    | .error e => .error e
    | .ok c' =>
      match s.checks.find? (fun old => old.node == c.node && old.checkID == c.checkID) with
      | none =>
        .ok { s with
          checks := s.checks ++ [{ c' with createIndex := idx, modifyIndex := idx }],
          index.checks := idx }
      | some _ =>
        .ok { s with
          checks := s.checks.map (fun old =>
            if old.node == c.node && old.checkID == c.checkID then
              { c' with createIndex := old.createIndex, modifyIndex := idx }
            else old),
          index.checks := idx }

/-! ### K/V store -/

/-- Modelled from the spec: `KVSGet` returns the live entry or nothing
(§4.4). -/
def KVSGet (key : String) (s : StateStore) : Option DirEntry :=
  s.kvs.find? (fun e => e.key == key)

/-- Modelled from the spec: `KVSSet` upserts preserving CreateIndex
(and, on update, LockIndex and the session holder); a prior tombstone
for the key is removed; writes `IndexRow[kvs]` (§4.4). -/
def KVSSet (idx : Nat) (e : DirEntry) (s : StateStore) : StateStore :=
  match KVSGet e.key s with
  | none =>
    { s with kvs := s.kvs ++ [{ e with createIndex := idx, modifyIndex := idx }],
             tombstones := s.tombstones.filter (fun t => t.key != e.key),
             index.kvs := idx }
  | some _ =>
    { s with kvs := s.kvs.map (fun old =>
        if old.key == e.key then
          { e with createIndex := old.createIndex,
                   lockIndex := old.lockIndex,
                   session := old.session,
                   modifyIndex := idx }
        else old),
             tombstones := s.tombstones.filter (fun t => t.key != e.key),
             index.kvs := idx }

/-- Modelled from the spec: `KVSDelete` removes the entry and writes a
tombstone at the given index; deleting a nonexistent key is an
idempotent no-op that does not bump the index (§4.4, §7; pinned by
part_000 lines 1309–1354). -/
def KVSDelete (idx : Nat) (key : String) (s : StateStore) : StateStore :=
  if s.kvs.any (fun e => e.key == key) then
    { s with kvs := s.kvs.filter (fun e => e.key != key),
             tombstones := s.tombstones ++ [{ key := key, index := idx }],
             index.kvs := idx, index.tombstones := idx }
  else s

/-- Whether `p` is a prefix of `k`, computed on the underlying
character lists (`strings.HasPrefix` in Go).  `String.isPrefixOf` works
on byte positions and does not evaluate inside the kernel, so the model
uses the character-list version, which agrees with it. -/
def strHasPre (p k : String) : Bool := p.data.isPrefixOf k.data

/-- Modelled from the spec: `KVSDeleteTree` removes every entry whose
key has the given prefix, writing one tombstone per removal; if nothing
matched, neither table nor index is mutated (§4.4). -/
def KVSDeleteTree (idx : Nat) (pre : String) (s : StateStore) : StateStore :=
  let hit := s.kvs.filter (fun e => strHasPre pre e.key)
  if hit.isEmpty then s
  else
    { s with kvs := s.kvs.filter (fun e => !(strHasPre pre e.key)),
             tombstones := s.tombstones ++ hit.map (fun e => { key := e.key, index := idx }),
             index.kvs := idx, index.tombstones := idx }

/-- Modelled from the spec: `KVSSetCAS` succeeds iff
(`entry.ModifyIndex == 0 ∧ ¬exists`) ∨ (`exists ∧ stored.ModifyIndex ==
entry.ModifyIndex`); it returns the ok bit and mutates only on success
(§4.4; pinned by part_000 lines 1413–1543).  The Go signature also
carries an error that is only raised by the underlying database, never
by the CAS logic, so the model returns no error. -/
def KVSSetCAS (idx : Nat) (e : DirEntry) (s : StateStore) : Bool × StateStore :=
  let ok := match KVSGet e.key s with
    | none => e.modifyIndex == 0
    | some old => old.modifyIndex == e.modifyIndex
  if ok then (true, KVSSet idx e s) else (false, s)

/-- Modelled from the spec: `KVSDeleteCAS` succeeds iff the key does not
exist (idempotent true, no mutation) or the stored ModifyIndex matches
(§4.4; pinned by part_000 lines 1356–1411). -/
def KVSDeleteCAS (idx : Nat) (cidx : Nat) (key : String) (s : StateStore) :
    Bool × StateStore :=
  match KVSGet key s with
  | none => (true, s)
  | some old =>
    if old.modifyIndex == cidx then (true, KVSDelete idx key s) else (false, s)

/-- The maximum of a list of indexes, 0 when empty. -/
def natMax : List Nat → Nat
  | [] => 0
  | x :: xs => max x (natMax xs)

/-- The largest ModifyIndex among live entries under a prefix. -/
def kvsLiveMax (pre : String) (s : StateStore) : Nat :=
  natMax ((s.kvs.filter (fun e => strHasPre pre e.key)).map (fun e => e.modifyIndex))

/-- The largest tombstone index under a prefix. -/
def kvsTombMax (pre : String) (s : StateStore) : Nat :=
  natMax ((s.tombstones.filter (fun t => strHasPre pre t.key)).map (fun t => t.index))

/-- Modelled from the spec: `KVSList` returns the live entries matching
the prefix; the result index is the maximum over the matching live
entries' ModifyIndex and the matching tombstones' indexes (§4.2 prefix
queries; pinned by part_000 lines 152–207 and 1211–1259). -/
def KVSList (pre : String) (s : StateStore) : Nat × List DirEntry :=
  (max (kvsLiveMax pre s) (kvsTombMax pre s),
   s.kvs.filter (fun e => strHasPre pre e.key))

/-- Modelled from the spec: `ReapTombstones(upto)` deletes every
tombstone with `index ≤ upto` (§4.6). -/
def ReapTombstones (upto : Nat) (s : StateStore) : StateStore :=
  { s with tombstones := s.tombstones.filter (fun t => !(t.index ≤ upto)) }

/-! ### Locks and sessions -/

/-- Modelled from the spec: `GetSession` returns the session with the
given id, or nothing. -/
def GetSession (id : String) (s : StateStore) : Option Session :=
  s.sessions.find? (fun x => x.id == id)

/-- Modelled from the spec: `SessionGet` also returns
`IndexRow[sessions]` as the result index. -/
def SessionGet (id : String) (s : StateStore) : Nat × Option Session :=
  (s.index.sessions, GetSession id s)

/-- Modelled from the spec: `KVSLock` requires a nonempty, existing
session.  If the key is unheld or held by the same session the holder is
set and LockIndex is incremented only on first acquisition for a new
holder; a key held by a different session yields ok=false without
mutation (§4.4 locks; pinned by part_001 lines 798–840). -/
def KVSLock (idx : Nat) (e : DirEntry) (s : StateStore) :
    Except StoreError (Bool × StateStore) :=
  if e.session == "" then .error .missingSessionID
  else match GetSession e.session s with
  | none => .error (.invalidSession e.session)
  | some _ =>
    match KVSGet e.key s with
    | none =>
      .ok (true, { s with
        kvs := s.kvs ++ [{ e with lockIndex := 1, createIndex := idx, modifyIndex := idx }],
        tombstones := s.tombstones.filter (fun t => t.key != e.key),
        index.kvs := idx })
    | some old =>
      if old.session != "" && old.session != e.session then
        .ok (false, s)
      else
        let li := if old.session == e.session then old.lockIndex else old.lockIndex + 1
        .ok (true, { s with
          kvs := s.kvs.map (fun x =>
            if x.key == e.key then
              { e with lockIndex := li, createIndex := old.createIndex, modifyIndex := idx }
            else x),
          index.kvs := idx })

/-- Modelled from the spec: `KVSUnlock` requires the request's session
to equal the holder; it clears the session field, preserves LockIndex
and returns ok; a non-holder (or a missing key) yields ok=false without
mutation (§4.4 locks; pinned by part_001 lines 842–902). -/
def KVSUnlock (idx : Nat) (e : DirEntry) (s : StateStore) : Bool × StateStore :=
  match KVSGet e.key s with
  | none => (false, s)
  | some old =>
    if old.session != e.session then (false, s)
    else
      (true, { s with
        kvs := s.kvs.map (fun x =>
          if x.key == e.key then
            { e with session := "", lockIndex := old.lockIndex,
                     createIndex := old.createIndex, modifyIndex := idx }
          else x),
        index.kvs := idx })

/-- The per-behaviour part of session destruction (§4.5): release
clears the holder on every held entry preserving LockIndex (bumping the
kvs index when any entry was held); delete runs `KVSDelete` on every
held key. -/
def destroyHeldEntries (idx : Nat) (id : String) (behavior : String)
    (s : StateStore) : StateStore :=
  if behavior == "delete" then
    ((s.kvs.filter (fun e => e.session == id)).map (fun e => e.key)).foldl
      (fun acc k => KVSDelete idx k acc) s
  else if (s.kvs.filter (fun e => e.session == id)).isEmpty then s
  else
    { s with kvs := s.kvs.map (fun e =>
        if e.session == id then { e with session := "", modifyIndex := idx } else e),
             index.kvs := idx }

/-- Modelled from the spec: session destruction removes the session and
its session_checks rows and applies the session's behaviour to every
K/V entry it holds — release clears the holder preserving LockIndex,
delete deletes the entries writing tombstones (§4.5); destroying a
nonexistent session is an idempotent no-op (§7; pinned by part_000
lines 1820–1832). -/
def SessionDestroy (idx : Nat) (id : String) (s : StateStore) : StateStore :=
  match GetSession id s with
  | none => s
  | some sess =>
    destroyHeldEntries idx id sess.behavior
      { s with sessions := s.sessions.filter (fun x => x.id != id),
               sessionChecks := s.sessionChecks.filter (fun sc => sc.session != id),
               index.sessions := idx }

/-- Modelled from the spec: `SessionCreate` fails on a missing id, an
unknown behaviour string, an unknown node, and a missing or critical
referenced check (in that order, pinned by part_000 lines 1604–1687);
the default behaviour is release and session_checks rows are
inserted. -/
def SessionCreate (idx : Nat) (sess : Session) (s : StateStore) :
    Except StoreError StateStore :=
  if sess.id == "" then .error .missingSessionID
  else
    let behavior := if sess.behavior == "" then "release" else sess.behavior
    if behavior != "release" && behavior != "delete" then
      .error (.invalidSessionBehavior behavior)
    else match GetNode sess.node s with
    | none => .error .missingNode
    | some _ =>
      match sess.checks.find? (fun cid =>
          !(s.checks.any (fun c => c.node == sess.node && c.checkID == cid))) with
      | some cid => .error (.missingCheck cid)
      | none =>
        match sess.checks.find? (fun cid =>
            s.checks.any (fun c =>
              c.node == sess.node && c.checkID == cid && c.status == "critical")) with
        | some cid => .error (.criticalCheck cid)
        | none =>
          .ok { s with
            sessions := s.sessions ++
              [{ sess with behavior := behavior, createIndex := idx, modifyIndex := idx }],
            sessionChecks := s.sessionChecks ++
              sess.checks.map (fun cid => { node := sess.node, checkID := cid, session := sess.id }),
            index.sessions := idx }

/-! ### ACLs -/

/-- Modelled from the spec: `ACLGet` returns the record by id, or
nothing. -/
def ACLGet (id : String) (s : StateStore) : Option ACL :=
  s.acls.find? (fun a => a.id == id)

/-- Modelled from the spec: `ACLSet` fails on an empty id, otherwise
upserts preserving CreateIndex and writes `IndexRow[acls]` (§4.8 table
in §6; pinned by part_000 lines 1876–1951). -/
def ACLSet (idx : Nat) (a : ACL) (s : StateStore) : Except StoreError StateStore :=
  if a.id == "" then .error .missingACLID
  else match ACLGet a.id s with
  | none =>
    .ok { s with acls := s.acls ++ [{ a with createIndex := idx, modifyIndex := idx }],
                 index.acls := idx }
  | some old =>
    let upd := fun (x : ACL) =>
      if x.id == a.id then
        { a with createIndex := old.createIndex, modifyIndex := idx }
      else x
    .ok { s with acls := s.acls.map upd, index.acls := idx }

/-- Modelled from the spec: `ACLDelete` of a nonexistent id is an
idempotent no-op that does not bump the index (§7; pinned by part_000
lines 2074–2098). -/
def ACLDelete (idx : Nat) (id : String) (s : StateStore) : StateStore :=
  match ACLGet id s with
  | none => s
  | some _ =>
    { s with acls := s.acls.filter (fun a => a.id != id), index.acls := idx }

/-! ### Catalog deletes (with cascades) -/

/-- Modelled from the spec: `DeleteCheck` invalidates sessions
referencing the check and removes it; a nonexistent check is an
idempotent no-op (§4.3, §7; pinned by part_000 lines 878–911). -/
def DeleteCheck (idx : Nat) (node checkID : String) (s : StateStore) : StateStore :=
  match s.checks.find? (fun c => c.node == node && c.checkID == checkID) with
  | none => s
  | some _ =>
    let sids := (s.sessionChecks.filter (fun sc =>
        sc.node == node && sc.checkID == checkID)).map (fun sc => sc.session)
    let s1 := sids.foldl (fun acc sid => SessionDestroy idx sid acc) s
    { s1 with checks := s1.checks.filter (fun c =>
        !(c.node == node && c.checkID == checkID)),
              index.checks := idx }

/-- Modelled from the spec: `DeleteService` cascades to the checks
attached to the service (invalidating their sessions) and removes the
service; a nonexistent service is an idempotent no-op (§4.3, §7; pinned
by part_000 lines 618–661). -/
def DeleteService (idx : Nat) (node svcID : String) (s : StateStore) : StateStore :=
  match s.services.find? (fun pr => pr.1 == node && pr.2.id == svcID) with
  | none => s
  | some _ =>
    let cids := (s.checks.filter (fun c =>
        c.node == node && c.serviceID == svcID)).map (fun c => c.checkID)
    let s1 := cids.foldl (fun acc cid => DeleteCheck idx node cid acc) s
    { s1 with services := s1.services.filter (fun pr =>
        !(pr.1 == node && pr.2.id == svcID)),
              index.services := idx }

/-- Modelled from the spec: `DeleteNode` cascades to the node's services
and checks and invalidates the sessions bound to the node; a
nonexistent node is an idempotent no-op (§4.3, §7; pinned by part_000
lines 451–505). -/
def DeleteNode (idx : Nat) (name : String) (s : StateStore) : StateStore :=
  match GetNode name s with
  | none => s
  | some _ =>
    let svcIDs := (s.services.filter (fun pr => pr.1 == name)).map (fun pr => pr.2.id)
    let s1 := svcIDs.foldl (fun acc svcID => DeleteService idx name svcID acc) s
    let cids := (s1.checks.filter (fun c => c.node == name)).map (fun c => c.checkID)
    let s2 := cids.foldl (fun acc cid => DeleteCheck idx name cid acc) s1
    let sids := (s2.sessions.filter (fun x => x.node == name)).map (fun x => x.id)
    let s3 := sids.foldl (fun acc sid => SessionDestroy idx sid acc) s2
    { s3 with nodes := s3.nodes.filter (fun n => n.node != name),
              index.nodes := idx }

/-! ### Cross-table join -/

/-- One `{node, service, checks}` triple of the checks-for-service
join. -/
structure CheckServiceNode where
  node : Node
  service : NodeService
  checks : List HealthCheck
  deriving Repr, DecidableEq

/-- The largest ModifyIndex appearing in one join result row. -/
def csnRowIdx (r : CheckServiceNode) : Nat :=
  max r.node.modifyIndex
    (max r.service.modifyIndex (natMax (r.checks.map (fun c => c.modifyIndex))))

/-- The largest ModifyIndex appearing in a list of join results. -/
def csnRowMax : List CheckServiceNode → Nat
  | [] => 0
  | r :: l => max (csnRowIdx r) (csnRowMax l)

/-- One service row of the checks-for-service scan: a row whose logical
service name matches is joined with its node and its service-attached
checks, and the accumulated result index absorbs the ModifyIndexes of
the gathered rows. -/
def csnStep (s : StateStore) (name : String)
    (acc : Nat × List CheckServiceNode) (pr : String × NodeService) :
    Nat × List CheckServiceNode :=
  if pr.2.service == name then
    match GetNode pr.1 s with
    | none => acc
    | some nd =>
      let cks := s.checks.filter (fun c => c.node == pr.1 && c.serviceID == pr.2.id)
      (max acc.1 (max nd.modifyIndex
         (max pr.2.modifyIndex (natMax (cks.map (fun c => c.modifyIndex))))),
       acc.2 ++ [{ node := nd, service := pr.2, checks := cks }])
  else acc

/-- Modelled from the spec: `CheckServiceNodes` scans the service rows
matching the logical service name and joins each with its node and its
service-attached checks, accumulating the largest ModifyIndex observed
across the gathered rows as the result index.  That accumulated result
index is NOT the maximum of the three tables' IndexRows:
TestStateStore_CheckServiceNodes (part_000 lines 940–952) requires
index 6 at a point where the checks table index is 7, so the model
follows the test. -/
def CheckServiceNodes (name : String) (s : StateStore) :
    Nat × List CheckServiceNode :=
  s.services.foldl (csnStep s name) (0, [])

/-! ### Registration and indexes -/

/-- structs.RegisterRequest (fsm.go lines 99–115, 400–439). -/
structure RegisterRequest where
  node : String
  address : String
  service : Option NodeService
  check : Option HealthCheck
  checks : List HealthCheck
  deriving Repr, DecidableEq

/-- Modelled from the spec: `EnsureRegistration` atomically upserts the
node, then the optional service, the optional top-level check and the
items of checks[]; any failure aborts the whole transaction (§4.3). -/
def EnsureRegistration (idx : Nat) (req : RegisterRequest) (s : StateStore) :
    Except StoreError StateStore :=
  let s1 := EnsureNode idx
    { node := req.node, address := req.address, createIndex := 0, modifyIndex := 0 } s
  let afterSvc : Except StoreError StateStore :=
    match req.service with
    | none => .ok s1
    | some sv => EnsureService idx req.node sv s1
  match afterSvc with
  | .error e => .error e
  | .ok s2 =>
    let afterChk : Except StoreError StateStore :=
      match req.check with
      | none => .ok s2
      | some c => EnsureCheck idx c s2
    match afterChk with
    | .error e => .error e
    | .ok s3 =>
      req.checks.foldlM (fun acc c => EnsureCheck idx c acc) s3

/-- state.StateStore.maxIndex over the three catalog tables, used by the
spec's §4.2 join formula. -/
def maxIndexCatalog (s : StateStore) : Nat :=
  max (max s.index.nodes s.index.services) s.index.checks

/-- Modelled from the spec: `LastIndex` is the largest index recorded in
the index table (glossary; fsm.go line 356). -/
def LastIndex (s : StateStore) : Nat :=
  max (max (max s.index.nodes s.index.services) (max s.index.checks s.index.kvs))
    (max (max s.index.tombstones s.index.sessions) s.index.acls)

/-! ### The FSM Apply surface (src/consul/fsm.go lines 63–247)

Message-type constants come from `consul/structs` (not in the source
excerpt); modelled from the spec's §6 table: Register, Deregister, K/V,
Session, ACL, Tombstone in order, with `IgnoreUnknownTypeFlag = 128`
the high bit of the type byte.  A type byte `t < 256` has the flag set
iff `t / 128 = 1`, and masking the flag off (`t &^ 128` in Go) is
`t % 128`. -/

/-- structs.DeregisterRequest (fsm.go lines 119–140). -/
structure DeregisterRequest where
  node : String
  serviceID : String
  checkID : String
  deriving Repr, DecidableEq

/-- structs.KVSRequest: op ∈ {set, delete, delete-cas, delete-tree,
cas, lock, unlock} plus a DirEntry (§6 table). -/
structure KVSRequest where
  op : String
  dirEnt : DirEntry
  deriving Repr, DecidableEq

/-- structs.SessionRequest: op ∈ {create, destroy} plus a Session. -/
structure SessionRequest where
  op : String
  session : Session
  deriving Repr, DecidableEq

/-- structs.ACLRequest: op ∈ {set, force-set, delete} plus an ACL. -/
structure ACLRequest where
  op : String
  acl : ACL
  deriving Repr, DecidableEq

/-- structs.TombstoneRequest: op = reap plus the reap index. -/
structure TombstoneRequest where
  op : String
  reapIndex : Nat
  deriving Repr, DecidableEq

/-- The decoded body of a command buffer.  `undecodable` stands for
bytes that fail `structs.Decode` for every request type; a recognized
message type whose bytes decode to a different request also fails its
decode. -/
inductive Payload where
  | register (req : RegisterRequest)
  | deregister (req : DeregisterRequest)
  | kvsReq (req : KVSRequest)
  | sessionReq (req : SessionRequest)
  | aclReq (req : ACLRequest)
  | tombstoneReq (req : TombstoneRequest)
  | undecodable
  deriving Repr, DecidableEq

/-- The value fsm.Apply hands back to the raft caller: nil, a boolean
(CAS-like ops), a generated id string, or an error object (§6 return
values). -/
inductive ApplyResult where
  | rnil
  | rbool (b : Bool)
  | rstr (v : String)
  | rerr (e : StoreError)
  deriving Repr, DecidableEq

/-- A Go panic inside Apply (decode failure, or an unknown message type
without the ignore flag — fsm.go lines 94, 102, 121, 146, 194, 215,
236). -/
inductive FsmErr where
  | fatal
  deriving Repr, DecidableEq

/-- consulFSM.applyRegister (fsm.go lines 107–115): an
EnsureRegistration error is returned as a value and the transaction
aborts, leaving the store unchanged. -/
def applyRegister (s : StateStore) (index : Nat) (req : RegisterRequest) :
    ApplyResult × StateStore :=
  match EnsureRegistration index req s with
  | .ok s' => (.rnil, s')
  | .error e => (.rerr e, s)

/-- consulFSM.applyDeregister (fsm.go lines 117–142): ServiceID
non-empty dispatches DeleteService, else CheckID non-empty dispatches
DeleteCheck, else DeleteNode.  The modelled deletes have no logical
error paths (their Go errors only come from the database), so the
result is always nil. -/
def applyDeregister (s : StateStore) (index : Nat) (req : DeregisterRequest) :
    ApplyResult × StateStore :=
  if req.serviceID != "" then
    (.rnil, DeleteService index req.node req.serviceID s)
  else if req.checkID != "" then
    (.rnil, DeleteCheck index req.node req.checkID s)
  else
    (.rnil, DeleteNode index req.node s)

/-- consulFSM.applyKVSOperation (fsm.go lines 144–190). -/
def applyKVSOperation (s : StateStore) (index : Nat) (req : KVSRequest) :
    ApplyResult × StateStore :=
  if req.op == "set" then (.rnil, KVSSet index req.dirEnt s)
  else if req.op == "delete" then (.rnil, KVSDelete index req.dirEnt.key s)
  else if req.op == "delete-cas" then
    let (act, s') := KVSDeleteCAS index req.dirEnt.modifyIndex req.dirEnt.key s
    (.rbool act, s')
  else if req.op == "delete-tree" then (.rnil, KVSDeleteTree index req.dirEnt.key s)
  else if req.op == "cas" then
    let (act, s') := KVSSetCAS index req.dirEnt s
    (.rbool act, s')
  else if req.op == "lock" then
    match KVSLock index req.dirEnt s with
    | .ok (act, s') => (.rbool act, s')
    | .error e => (.rerr e, s)
  else if req.op == "unlock" then
    let (act, s') := KVSUnlock index req.dirEnt s
    (.rbool act, s')
  else (.rerr (.invalidKVSOp req.op), s)

/-- consulFSM.applySessionOperation (fsm.go lines 192–211): a
successful create returns the session id. -/
def applySessionOperation (s : StateStore) (index : Nat) (req : SessionRequest) :
    ApplyResult × StateStore :=
  if req.op == "create" then
    match SessionCreate index req.session s with
    | .ok s' => (.rstr req.session.id, s')
    | .error e => (.rerr e, s)
  else if req.op == "destroy" then
    (.rnil, SessionDestroy index req.session.id s)
  else (.rerr (.invalidSessionOp req.op), s)

/-- consulFSM.applyACLOperation (fsm.go lines 213–232): set and
force-set are the same path; success returns the ACL id. -/
def applyACLOperation (s : StateStore) (index : Nat) (req : ACLRequest) :
    ApplyResult × StateStore :=
  if req.op == "set" || req.op == "force-set" then
    match ACLSet index req.acl s with
    | .ok s' => (.rstr req.acl.id, s')
    | .error e => (.rerr e, s)
  else if req.op == "delete" then
    (.rnil, ACLDelete index req.acl.id s)
  else (.rerr (.invalidACLOp req.op), s)

/-- consulFSM.applyTombstoneOperation (fsm.go lines 234–247); the log
index is taken but unused, as in the Go code. -/
def applyTombstoneOperation (s : StateStore) (_index : Nat) (req : TombstoneRequest) :
    ApplyResult × StateStore :=
  if req.op == "reap" then (.rnil, ReapTombstones req.reapIndex s)
  else (.rerr (.invalidTombstoneOp req.op), s)

/-- consulFSM.Apply (fsm.go lines 63–97).  `typeByte` is the first byte
of the command buffer (so `typeByte < 256`); the ignore-if-unknown flag
is its high bit and is masked off before the dispatch switch.  A decode
failure inside a recognized branch panics, modelled as `.error .fatal`;
an unknown masked type panics unless the flag was set, in which case
the command is skipped and nil is returned. -/
def Apply (s : StateStore) (index : Nat) (typeByte : Nat) (p : Payload) :
    Except FsmErr (ApplyResult × StateStore) :=
  let ignoreUnknown := typeByte / 128 = 1
  let msgType := typeByte % 128
  if msgType = 0 then
    match p with
    | .register req => .ok (applyRegister s index req)
    | _ => .error .fatal
  else if msgType = 1 then
    match p with
    | .deregister req => .ok (applyDeregister s index req)
    | _ => .error .fatal
  else if msgType = 2 then
    match p with
    | .kvsReq req => .ok (applyKVSOperation s index req)
    | _ => .error .fatal
  else if msgType = 3 then
    match p with
    | .sessionReq req => .ok (applySessionOperation s index req)
    | _ => .error .fatal
  else if msgType = 4 then
    match p with
    | .aclReq req => .ok (applyACLOperation s index req)
    | _ => .error .fatal
  else if msgType = 5 then
    match p with
    | .tombstoneReq req => .ok (applyTombstoneOperation s index req)
    | _ => .error .fatal
  else if ignoreUnknown then .ok (.rnil, s)
  else .error .fatal

/-! ### Snapshot, persist and restore (fsm.go lines 249–519) -/

/-- The consul FSM: a holder of the current state store. -/
structure FSM where
  state : StateStore
  deriving Repr, DecidableEq

/-- One `(type-byte, record)` pair of the snapshot stream (§4.8).
`unknown t` is a record whose type byte `t` is not one of the five
recognized record types (fsm.go line 341); `corrupt` is a record whose
body fails to decode (fsm.go lines 291, 298, 307, 316, 325). -/
inductive SnapRecord where
  | register (req : RegisterRequest)
  | kv (e : DirEntry)
  | session (x : Session)
  | acl (a : ACL)
  | tombstone (e : DirEntry)
  | unknown (typeByte : Nat)
  | corrupt
  deriving Repr, DecidableEq

/-- Errors raised while reading a snapshot stream back in. -/
inductive RestoreErr where
  | headerDecodeFailure
  | recordDecodeFailure
  | unrecognizedType (typeByte : Nat)
  deriving Repr, DecidableEq

/-- The snapshot stream: the header record `{LastIndex}` followed by the
records; `header = none` is a stream whose header fails to decode. -/
structure SnapStream where
  header : Option Nat
  records : List SnapRecord
  deriving Repr, DecidableEq

/-- Modelled from the spec: `KVSRestore` inserts the dumped entry with
its original indexes and raises `IndexRow[kvs]` to cover it (§4.8;
fsm.go lines 296–303 call it with the decoded DirEntry and no log
index). -/
def KVSRestore (e : DirEntry) (s : StateStore) : StateStore :=
  match KVSGet e.key s with
  | none => { s with kvs := s.kvs ++ [e], index.kvs := max s.index.kvs e.modifyIndex }
  | some _ =>
    { s with kvs := s.kvs.map (fun old => if old.key == e.key then e else old),
             index.kvs := max s.index.kvs e.modifyIndex }

/-- Modelled from the spec: `SessionRestore` inserts the dumped session
with its original indexes, rebuilds its session_checks rows and raises
`IndexRow[sessions]` (§4.8; fsm.go lines 305–312). -/
def SessionRestore (x : Session) (s : StateStore) : StateStore :=
  match GetSession x.id s with
  | none =>
    { s with sessions := s.sessions ++ [x],
             sessionChecks := s.sessionChecks ++
               x.checks.map (fun cid => { node := x.node, checkID := cid, session := x.id }),
             index.sessions := max s.index.sessions x.modifyIndex }
  | some _ =>
    { s with sessions := s.sessions.map (fun old => if old.id == x.id then x else old),
             index.sessions := max s.index.sessions x.modifyIndex }

/-- Modelled from the spec: `ACLRestore` inserts the dumped ACL with its
original indexes and raises `IndexRow[acls]` (§4.8; fsm.go lines
314–321). -/
def ACLRestore (a : ACL) (s : StateStore) : StateStore :=
  match ACLGet a.id s with
  | none => { s with acls := s.acls ++ [a], index.acls := max s.index.acls a.modifyIndex }
  | some _ =>
    { s with acls := s.acls.map (fun old => if old.id == a.id then a else old),
             index.acls := max s.index.acls a.modifyIndex }

/-- Modelled from the spec: `TombstoneRestore` inserts the dumped
tombstone and raises `IndexRow[tombstones]` (§4.8; fsm.go lines
323–338 rebuild the Tombstone from a DirEntry whose ModifyIndex holds
the tombstone index). -/
def TombstoneRestore (t : Tombstone) (s : StateStore) : StateStore :=
  { s with tombstones := s.tombstones ++ [t],
           index.tombstones := max s.index.tombstones t.index }

/-- Whether a record restores without stopping the loop. -/
def SnapRecord.isGood : SnapRecord → Bool
  | .unknown _ => false
  | .corrupt => false
  | _ => true

/-- The effect of one good record on the store being rebuilt, at the
header's LastIndex.  The register path goes through applyRegister whose
returned error value is discarded (fsm.go line 294). -/
def restoreStep (lastIndex : Nat) (s : StateStore) : SnapRecord → StateStore
  | .register req => (applyRegister s lastIndex req).2
  | .kv e => KVSRestore e s
  | .session x => SessionRestore x s
  | .acl a => ACLRestore a s
  | .tombstone e => TombstoneRestore { key := e.key, index := e.modifyIndex } s
  | .unknown _ => s
  | .corrupt => s

/-- The record loop of consulFSM.Restore (fsm.go lines 277–343): decode
records one by one; a record that fails to decode or carries an
unrecognized type byte returns the error immediately, keeping the store
populated so far. -/
def restoreLoop (lastIndex : Nat) (s : StateStore) :
    List SnapRecord → Option RestoreErr × StateStore
  | [] => (none, s)
  | r :: rest =>
    match r with
    | .unknown t => (some (.unrecognizedType t), s)
    | .corrupt => (some .recordDecodeFailure, s)
    | _ => restoreLoop lastIndex (restoreStep lastIndex s r) rest

/-- consulFSM.Restore (fsm.go lines 257–346): a fresh state store
replaces `c.state` BEFORE the header is decoded; errors are returned to
the caller with `c.state` left at whatever has been populated.  The
previous store held by the FSM is discarded unconditionally. -/
def Restore (_fsm : FSM) (st : SnapStream) : Option RestoreErr × FSM :=
  match st.header with
  | none => (some .headerDecodeFailure, { state := emptyStore })
  | some lastIndex =>
    let (e, s) := restoreLoop lastIndex emptyStore st.records
    (e, { state := s })

/-- The node-only register request persisted for a node (fsm.go lines
402–405). -/
def nodeOnlyReq (n : Node) : RegisterRequest :=
  { node := n.node, address := n.address, service := none, check := none, checks := [] }

/-- The register request persisted for one service of a node (fsm.go
lines 418–424: the request still carries the node fields). -/
def svcReq (n : Node) (sv : NodeService) : RegisterRequest :=
  { node := n.node, address := n.address, service := some sv, check := none, checks := [] }

/-- The register request persisted for one check of a node (fsm.go
lines 427–438: Service has been reset to nil). -/
def chkReq (n : Node) (c : HealthCheck) : RegisterRequest :=
  { node := n.node, address := n.address, service := none, check := some c, checks := [] }

/-- The register records emitted for one node: the node itself, then
one record per service on it, then one per check — fsm.go lines
400–439. -/
def nodeRegRecs (s : StateStore) (n : Node) : List SnapRecord :=
  SnapRecord.register (nodeOnlyReq n) ::
  ((nodeServiceEntries n.node s).map (fun sv => SnapRecord.register (svcReq n sv)) ++
   (s.checks.filter (fun c => c.node == n.node)).map
     (fun c => SnapRecord.register (chkReq n c)))

/-- consulSnapshot.persistNodes (fsm.go lines 390–441). -/
def persistNodes (s : StateStore) : List SnapRecord :=
  s.nodes.flatMap (nodeRegRecs s)

/-- The DirEntry a tombstone is serialized as in the snapshot (fsm.go
lines 504–509). -/
def tombFake (tb : Tombstone) : DirEntry :=
  { key := tb.key, value := "", flags := 0, lockIndex := 0, session := "",
    createIndex := 0, modifyIndex := tb.index }

/-- consulSnapshot.Persist (fsm.go lines 348–515): header with the
snapshot's LastIndex, then nodes (with services and checks), sessions,
ACLs, K/V entries and tombstones — the latter serialized as K/V records
whose ModifyIndex holds the tombstone index. -/
def Persist (s : StateStore) : SnapStream :=
  { header := some (LastIndex s),
    records :=
      persistNodes s ++
      s.sessions.map (fun x => .session x) ++
      s.acls.map (fun a => .acl a) ++
      s.kvs.map (fun e => .kv e) ++
      s.tombstones.map (fun t => SnapRecord.tombstone (tombFake t)) }

/-! ### Store invariants -/

/-- Well-formedness of a store, as maintained by the write operations
(spec §3 key invariants): keys of every table are unique, every service
and check sits on an existing node, every check has a nonempty status
(empty statuses are defaulted to critical on insert) and a check's
serviceID, when nonempty, names a service on its node whose logical
name is the check's ServiceName. -/
def WF (s : StateStore) : Prop :=
  s.nodes.Pairwise (fun a b => a.node ≠ b.node) ∧
  s.services.Pairwise (fun a b => ¬(a.1 = b.1 ∧ a.2.id = b.2.id)) ∧
  s.checks.Pairwise (fun a b => ¬(a.node = b.node ∧ a.checkID = b.checkID)) ∧
  s.kvs.Pairwise (fun a b => a.key ≠ b.key) ∧
  s.sessions.Pairwise (fun a b => a.id ≠ b.id) ∧
  s.acls.Pairwise (fun a b => a.id ≠ b.id) ∧
  (∀ pr ∈ s.services, ∃ n ∈ s.nodes, n.node = pr.1) ∧
  (∀ c ∈ s.checks, ∃ n ∈ s.nodes, n.node = c.node) ∧
  (∀ c ∈ s.checks, c.status ≠ "") ∧
  (∀ c ∈ s.checks, c.serviceID ≠ "" →
     ∃ pr ∈ s.services, pr.1 = c.node ∧ pr.2.id = c.serviceID ∧
       c.serviceName = pr.2.service)

/-- The §8 invariant 1 fragment used by the join theorems: every row's
ModifyIndex is bounded by its table's IndexRow. -/
def wfIndexes (s : StateStore) : Prop :=
  (∀ n ∈ s.nodes, n.modifyIndex ≤ s.index.nodes) ∧
  (∀ pr ∈ s.services, pr.2.modifyIndex ≤ s.index.services) ∧
  (∀ c ∈ s.checks, c.modifyIndex ≤ s.index.checks)

instance (s : StateStore) : Decidable (WF s) := by
  unfold WF; infer_instance

instance (s : StateStore) : Decidable (wfIndexes s) := by
  unfold wfIndexes; infer_instance

/-- How a restored catalog node relates to the original: indexes are
rewritten to the header's LastIndex. -/
def normNode (lastIndex : Nat) (n : Node) : Node :=
  { n with createIndex := lastIndex, modifyIndex := lastIndex }

/-- How a restored service relates to the original. -/
def normSvc (lastIndex : Nat) (sv : NodeService) : NodeService :=
  { sv with createIndex := lastIndex, modifyIndex := lastIndex }

/-- How a restored check relates to the original. -/
def normChk (lastIndex : Nat) (c : HealthCheck) : HealthCheck :=
  { c with createIndex := lastIndex, modifyIndex := lastIndex }

/-- The store a restore leaves behind. -/
def restoredFrom (old : FSM) (s : StateStore) : StateStore :=
  (Restore old (Persist s)).2.state

/-! ### General list lemmas -/

theorem natMax_le_iff (l : List Nat) (b : Nat) :
    natMax l ≤ b ↔ ∀ x ∈ l, x ≤ b := by
  induction l with
  | nil => simp [natMax]
  | cons x xs ih => simp [natMax, ih]

theorem le_natMax_of_mem {l : List Nat} {x : Nat} (h : x ∈ l) : x ≤ natMax l := by
  induction l with
  | nil => cases h
  | cons y ys ih =>
    rcases List.mem_cons.mp h with rfl | h'
    · exact Nat.le_max_left _ _
    · exact le_trans (ih h') (Nat.le_max_right _ _)

theorem natMax_lt_iff {l : List Nat} {b : Nat} (hb : 0 < b) :
    natMax l < b ↔ ∀ x ∈ l, x < b := by
  induction l with
  | nil => simpa [natMax]
  | cons x xs ih => simp [natMax, Nat.max_lt, ih]

theorem find?_filter_not {α} (p : α → Bool) (l : List α) :
    (l.filter (fun x => !(p x))).find? p = none := by
  rw [List.find?_eq_none]
  intro x hx
  have := (List.mem_filter.mp hx).2
  simp at this
  simp [this]

theorem any_filter_not {α} (p : α → Bool) (l : List α) :
    (l.filter (fun x => !(p x))).any p = false := by
  rw [Bool.eq_false_iff]
  intro h
  obtain ⟨x, hx, hpx⟩ := List.any_eq_true.mp h
  have := (List.mem_filter.mp hx).2
  simp [hpx] at this

theorem filter_filter_not_isEmpty {α} (p : α → Bool) (l : List α) :
    ((l.filter (fun x => !(p x))).filter p).isEmpty = true := by
  rw [List.isEmpty_iff, List.filter_eq_nil_iff]
  intro x hx
  have := (List.mem_filter.mp hx).2
  simp at this
  simp [this]

theorem find?_unique {α} (p : α → Bool) (l : List α) (a : α) (ha : a ∈ l)
    (hpa : p a = true) (hu : ∀ b ∈ l, p b = true → b = a) :
    l.find? p = some a := by
  induction l with
  | nil => cases ha
  | cons x xs ih =>
    by_cases hx : p x = true
    · have hxe : x = a := hu x (List.mem_cons_self x xs) hx
      subst hxe
      simp [List.find?_cons, hpa]
    · have hxa : x ≠ a := fun h => hx (h ▸ hpa)
      have ha' : a ∈ xs := by
        rcases List.mem_cons.mp ha with rfl | h'
        · exact absurd rfl hxa.symm
        · exact h'
      rw [List.find?_cons]
      simp only [Bool.not_eq_true] at hx
      rw [hx]
      exact ih ha' (fun b hb hpb => hu b (List.mem_cons_of_mem _ hb) hpb)

theorem find?_map_update {α} (p : α → Bool) (g : α → α) (l : List α) (old : α)
    (h : l.find? p = some old) (hg : p (g old) = true) :
    (l.map (fun x => if p x then g x else x)).find? p = some (g old) := by
  induction l with
  | nil => simp at h
  | cons x xs ih =>
    by_cases hx : p x = true
    · rw [List.find?_cons_of_pos _ hx] at h
      injection h with h
      subst h
      simp only [List.map_cons, if_pos hx]
      exact List.find?_cons_of_pos _ hg
    · rw [List.find?_cons_of_neg _ hx] at h
      simp only [List.map_cons, if_neg hx]
      rw [List.find?_cons_of_neg _ hx]
      exact ih h

theorem foldl_pres {σ α : Type} (f : σ → α → σ) (P : σ → Prop)
    (hf : ∀ t a, P t → P (f t a)) : ∀ (l : List α) (t : σ), P t → P (l.foldl f t) := by
  intro l
  induction l with
  | nil => intro t ht; exact ht
  | cons a l ih => intro t ht; exact ih (f t a) (hf t a ht)

theorem foldlM_except_pres {σ α ε : Type} (f : σ → α → Except ε σ) (P : σ → Prop)
    (hf : ∀ t a t', f t a = .ok t' → P t → P t') :
    ∀ (l : List α) (t t' : σ), l.foldlM f t = .ok t' → P t → P t' := by
  intro l
  induction l with
  | nil =>
    intro t t' h ht
    simp only [List.foldlM_nil] at h
    cases h
    exact ht
  | cons a l ih =>
    intro t t' h ht
    rw [List.foldlM_cons] at h
    cases hfa : f t a with
    | error e =>
      rw [hfa] at h
      exact Except.noConfusion h
    | ok t1 =>
      rw [hfa] at h
      exact ih t1 t' h (hf t a t1 hfa ht)

theorem filter_flatMap_group {α β : Type} (keyOf : β → String) (g : α → List β)
    (nameOf : α → String) (l : List α)
    (hl : l.Pairwise (fun a b => nameOf a ≠ nameOf b))
    (hg : ∀ a ∈ l, ∀ b ∈ g a, keyOf b = nameOf a) (nm : String) :
    (l.flatMap g).filter (fun b => keyOf b == nm) =
      (match l.find? (fun a => nameOf a == nm) with
       | some a => g a
       | none => []) := by
  induction l with
  | nil => simp
  | cons a t ih =>
    have hpw := (List.pairwise_cons.mp hl).1
    have hl' := (List.pairwise_cons.mp hl).2
    rw [List.flatMap_cons, List.filter_append]
    by_cases ha : nameOf a = nm
    · have h1 : (g a).filter (fun b => keyOf b == nm) = g a := by
        rw [List.filter_eq_self]
        intro b hb
        simp [hg a (List.mem_cons_self a t) b hb, ha]
      have h2 : (t.flatMap g).filter (fun b => keyOf b == nm) = [] := by
        rw [List.filter_eq_nil_iff]
        intro b hb
        obtain ⟨c, hc, hbc⟩ := List.mem_flatMap.mp hb
        have : keyOf b = nameOf c := hg c (List.mem_cons_of_mem _ hc) b hbc
        have hne : nameOf c ≠ nm := ha ▸ (hpw c hc).symm
        simp [this, hne]
      rw [h1, h2, List.find?_cons_of_pos _ (by simp [ha]), List.append_nil]
    · have h1 : (g a).filter (fun b => keyOf b == nm) = [] := by
        rw [List.filter_eq_nil_iff]
        intro b hb
        have := hg a (List.mem_cons_self a t) b hb
        simp [this, ha]
      rw [h1, List.find?_cons_of_neg _ (by simp [ha]), List.nil_append]
      exact ih hl' (fun c hc b hb => hg c (List.mem_cons_of_mem _ hc) b hb)

/-! ### Component-preservation lemmas: which tables each operation can
touch. -/

theorem KVSDelete_catalog (idx : Nat) (key : String) (t : StateStore) :
    (KVSDelete idx key t).nodes = t.nodes ∧
    (KVSDelete idx key t).services = t.services ∧
    (KVSDelete idx key t).checks = t.checks ∧
    (KVSDelete idx key t).sessions = t.sessions ∧
    (KVSDelete idx key t).acls = t.acls := by
  unfold KVSDelete
  split <;> exact ⟨rfl, rfl, rfl, rfl, rfl⟩

theorem kvsDeleteFold_catalog (idx : Nat) (ks : List String) (t : StateStore) :
    (ks.foldl (fun acc k => KVSDelete idx k acc) t).nodes = t.nodes ∧
    (ks.foldl (fun acc k => KVSDelete idx k acc) t).services = t.services ∧
    (ks.foldl (fun acc k => KVSDelete idx k acc) t).checks = t.checks ∧
    (ks.foldl (fun acc k => KVSDelete idx k acc) t).sessions = t.sessions ∧
    (ks.foldl (fun acc k => KVSDelete idx k acc) t).acls = t.acls := by
  induction ks generalizing t with
  | nil => exact ⟨rfl, rfl, rfl, rfl, rfl⟩
  | cons k ks ih =>
    have h1 := KVSDelete_catalog idx k t
    have h2 := ih (KVSDelete idx k t)
    simp only [List.foldl_cons]
    exact ⟨h2.1.trans h1.1, h2.2.1.trans h1.2.1, h2.2.2.1.trans h1.2.2.1,
           h2.2.2.2.1.trans h1.2.2.2.1, h2.2.2.2.2.trans h1.2.2.2.2⟩

theorem destroyHeldEntries_catalog (idx : Nat) (id behavior : String) (t : StateStore) :
    (destroyHeldEntries idx id behavior t).nodes = t.nodes ∧
    (destroyHeldEntries idx id behavior t).services = t.services ∧
    (destroyHeldEntries idx id behavior t).checks = t.checks ∧
    (destroyHeldEntries idx id behavior t).sessions = t.sessions ∧
    (destroyHeldEntries idx id behavior t).acls = t.acls := by
  unfold destroyHeldEntries
  split
  · exact kvsDeleteFold_catalog idx _ t
  · split <;> exact ⟨rfl, rfl, rfl, rfl, rfl⟩

theorem SessionDestroy_catalog (idx : Nat) (id : String) (t : StateStore) :
    (SessionDestroy idx id t).nodes = t.nodes ∧
    (SessionDestroy idx id t).services = t.services ∧
    (SessionDestroy idx id t).checks = t.checks ∧
    (SessionDestroy idx id t).acls = t.acls := by
  unfold SessionDestroy
  cases GetSession id t with
  | none => exact ⟨rfl, rfl, rfl, rfl⟩
  | some sess =>
    have h := destroyHeldEntries_catalog idx id sess.behavior
      { t with sessions := t.sessions.filter (fun x => x.id != id),
               sessionChecks := t.sessionChecks.filter (fun sc => sc.session != id),
               index.sessions := idx }
    exact ⟨h.1, h.2.1, h.2.2.1, h.2.2.2.2⟩

theorem sessionDestroyFold_catalog (idx : Nat) (ids : List String) (t : StateStore) :
    (ids.foldl (fun acc i => SessionDestroy idx i acc) t).nodes = t.nodes ∧
    (ids.foldl (fun acc i => SessionDestroy idx i acc) t).services = t.services ∧
    (ids.foldl (fun acc i => SessionDestroy idx i acc) t).checks = t.checks ∧
    (ids.foldl (fun acc i => SessionDestroy idx i acc) t).acls = t.acls := by
  induction ids generalizing t with
  | nil => exact ⟨rfl, rfl, rfl, rfl⟩
  | cons i ids ih =>
    have h1 := SessionDestroy_catalog idx i t
    have h2 := ih (SessionDestroy idx i t)
    simp only [List.foldl_cons]
    exact ⟨h2.1.trans h1.1, h2.2.1.trans h1.2.1, h2.2.2.1.trans h1.2.2.1,
           h2.2.2.2.trans h1.2.2.2⟩

theorem DeleteCheck_nodes_services (idx : Nat) (node checkID : String) (t : StateStore) :
    (DeleteCheck idx node checkID t).nodes = t.nodes ∧
    (DeleteCheck idx node checkID t).services = t.services := by
  unfold DeleteCheck
  cases t.checks.find? (fun c => c.node == node && c.checkID == checkID) with
  | none => exact ⟨rfl, rfl⟩
  | some _ =>
    have h := sessionDestroyFold_catalog idx
      (((t.sessionChecks.filter (fun sc => sc.node == node && sc.checkID == checkID)).map
        (fun sc => sc.session))) t
    exact ⟨h.1, h.2.1⟩

theorem DeleteService_nodes (idx : Nat) (node svcID : String) (t : StateStore) :
    (DeleteService idx node svcID t).nodes = t.nodes := by
  unfold DeleteService
  cases t.services.find? (fun pr => pr.1 == node && pr.2.id == svcID) with
  | none => rfl
  | some _ =>
    exact foldl_pres (fun acc cid => DeleteCheck idx node cid acc)
      (fun u => u.nodes = t.nodes)
      (fun u a hu => ((DeleteCheck_nodes_services idx node a u).1).trans hu) _ t rfl

/-! ### Deletes of nonexistent targets are no-ops, and a delete erases
its target. -/

theorem DeleteNode_noop {name : String} {s : StateStore} (i : Nat)
    (h : GetNode name s = none) : DeleteNode i name s = s := by
  unfold DeleteNode; rw [h]

theorem DeleteService_noop {node svcID : String} {s : StateStore} (i : Nat)
    (h : s.services.find? (fun pr => pr.1 == node && pr.2.id == svcID) = none) :
    DeleteService i node svcID s = s := by
  unfold DeleteService; rw [h]

theorem DeleteCheck_noop {node checkID : String} {s : StateStore} (i : Nat)
    (h : s.checks.find? (fun c => c.node == node && c.checkID == checkID) = none) :
    DeleteCheck i node checkID s = s := by
  unfold DeleteCheck; rw [h]

theorem KVSDelete_noop {key : String} {s : StateStore} (i : Nat)
    (h : KVSGet key s = none) : KVSDelete i key s = s := by
  have ha : s.kvs.any (fun e => e.key == key) = false := by
    rw [List.any_eq_false]
    intro e he
    exact List.find?_eq_none.mp h e he
  unfold KVSDelete
  simp [ha]

theorem KVSDeleteTree_noop {pre : String} {s : StateStore} (i : Nat)
    (h : (s.kvs.filter (fun e => strHasPre pre e.key)).isEmpty = true) :
    KVSDeleteTree i pre s = s := by
  unfold KVSDeleteTree
  simp only [h, if_pos]

theorem SessionDestroy_noop {sid : String} {s : StateStore} (i : Nat)
    (h : GetSession sid s = none) : SessionDestroy i sid s = s := by
  unfold SessionDestroy; rw [h]

theorem ACLDelete_noop {aid : String} {s : StateStore} (i : Nat)
    (h : ACLGet aid s = none) : ACLDelete i aid s = s := by
  unfold ACLDelete; rw [h]

theorem GetNode_after_DeleteNode (i : Nat) (name : String) (s : StateStore) :
    GetNode name (DeleteNode i name s) = none := by
  unfold DeleteNode
  cases h : GetNode name s with
  | none => exact h
  | some _ =>
    show List.find? _ (List.filter _ _) = none
    exact find?_filter_not (fun (n : Node) => n.node == name) _

theorem serviceFind_after_DeleteService (i : Nat) (node svcID : String) (s : StateStore) :
    (DeleteService i node svcID s).services.find?
      (fun pr => pr.1 == node && pr.2.id == svcID) = none := by
  unfold DeleteService
  cases h : s.services.find? (fun pr => pr.1 == node && pr.2.id == svcID) with
  | none => exact h
  | some _ =>
    exact find?_filter_not (fun (pr : String × NodeService) => pr.1 == node && pr.2.id == svcID) _

theorem checkFind_after_DeleteCheck (i : Nat) (node checkID : String) (s : StateStore) :
    (DeleteCheck i node checkID s).checks.find?
      (fun c => c.node == node && c.checkID == checkID) = none := by
  unfold DeleteCheck
  cases h : s.checks.find? (fun c => c.node == node && c.checkID == checkID) with
  | none => exact h
  | some _ =>
    exact find?_filter_not (fun (c : HealthCheck) => c.node == node && c.checkID == checkID) _

theorem KVSGet_after_KVSDelete (i : Nat) (key : String) (s : StateStore) :
    KVSGet key (KVSDelete i key s) = none := by
  unfold KVSDelete
  by_cases h : s.kvs.any (fun e => e.key == key) = true
  · simp only [if_pos h]
    exact find?_filter_not (fun (e : DirEntry) => e.key == key) _
  · simp only [if_neg h]
    rw [Bool.not_eq_true, List.any_eq_false] at h
    exact List.find?_eq_none.mpr h

theorem treeFilter_after_KVSDeleteTree (i : Nat) (pre : String) (s : StateStore) :
    ((KVSDeleteTree i pre s).kvs.filter (fun e => strHasPre pre e.key)).isEmpty = true := by
  unfold KVSDeleteTree
  by_cases h : (s.kvs.filter (fun e => strHasPre pre e.key)).isEmpty = true
  · simp only [h, if_pos]
  · simp only [h, if_neg, Bool.false_eq_true, not_false_iff]
    exact filter_filter_not_isEmpty (fun e => strHasPre pre e.key) s.kvs

theorem GetSession_after_SessionDestroy (i : Nat) (sid : String) (s : StateStore) :
    GetSession sid (SessionDestroy i sid s) = none := by
  unfold SessionDestroy
  cases h : GetSession sid s with
  | none => exact h
  | some sess =>
    show List.find? _ _ = none
    have hs := (destroyHeldEntries_catalog i sid sess.behavior
      { s with sessions := s.sessions.filter (fun x => x.id != sid),
               sessionChecks := s.sessionChecks.filter (fun sc => sc.session != sid),
               index.sessions := i }).2.2.2.1
    rw [hs]
    exact find?_filter_not (fun (x : Session) => x.id == sid) _

theorem ACLGet_after_ACLDelete (i : Nat) (aid : String) (s : StateStore) :
    ACLGet aid (ACLDelete i aid s) = none := by
  unfold ACLDelete
  cases h : ACLGet aid s with
  | none => exact h
  | some _ =>
    exact find?_filter_not (fun (a : ACL) => a.id == aid) _

/-! ### Concrete stores used by witnesses and counterexamples -/

/-- Keeps the store on a failed precondition, as the tests do when they
assert no error occurred. -/
def tryOp (f : StateStore → Except StoreError StateStore) (s : StateStore) : StateStore :=
  match f s with
  | .ok t => t
  | .error _ => s

/-- The store of TestStateStore_CheckServiceNodes (part_000 lines
914–952): two nodes at 0 and 1, node-level checks at 2 and 3, services
at 4 and 5, service checks at 6 and 7. -/
def sJoinScenario : StateStore :=
  emptyStore
    |> EnsureNode 0 ⟨"node1", "", 0, 0⟩
    |> EnsureNode 1 ⟨"node2", "", 0, 0⟩
    |> tryOp (EnsureCheck 2 ⟨"node1", "check1", "", "passing", "", "", "", "", 0, 0⟩)
    |> tryOp (EnsureCheck 3 ⟨"node2", "check2", "", "passing", "", "", "", "", 0, 0⟩)
    |> tryOp (EnsureService 4 "node1" ⟨"service1", "service1", [], "1.1.1.1", 1111, 0, 0⟩)
    |> tryOp (EnsureService 5 "node2" ⟨"service2", "service2", [], "1.1.1.1", 1111, 0, 0⟩)
    |> tryOp (EnsureCheck 6 ⟨"node1", "check3", "", "passing", "", "", "service1", "", 0, 0⟩)
    |> tryOp (EnsureCheck 7 ⟨"node2", "check4", "", "passing", "", "", "service2", "", 0, 0⟩)

/-- The store of TestStateStore_ReapTombstones (part_000 lines
152–207): five keys set at 1..5, two deleted at 6 and 7. -/
def sReapScenario : StateStore :=
  emptyStore
    |> KVSSet 1 ⟨"foo", "foo", 0, 0, "", 0, 0⟩
    |> KVSSet 2 ⟨"foo/bar", "bar", 0, 0, "", 0, 0⟩
    |> KVSSet 3 ⟨"foo/baz", "bar", 0, 0, "", 0, 0⟩
    |> KVSSet 4 ⟨"foo/moo", "bar", 0, 0, "", 0, 0⟩
    |> KVSSet 5 ⟨"foo/zoo", "bar", 0, 0, "", 0, 0⟩
    |> KVSDelete 6 "foo/baz"
    |> KVSDelete 7 "foo/moo"

/-! ### Claim theorems -/

/-- C6: every delete operation (DeleteNode, DeleteService, DeleteCheck,
KVSDelete, KVSDeleteTree, SessionDestroy, ACLDelete) applied to a
nonexistent target leaves the store — and hence every table's IndexRow —
unchanged and raises no error (the modelled deletes are total), and
repeating a delete of the same entity, even at a later log index, is
equivalent to performing it once. -/
theorem delete_idempotent_noop (s : StateStore) (i j : Nat)
    (name node svcID checkID key pre sid aid : String) :
    (GetNode name s = none → DeleteNode i name s = s) ∧
    (s.services.find? (fun pr => pr.1 == node && pr.2.id == svcID) = none →
       DeleteService i node svcID s = s) ∧
    (s.checks.find? (fun c => c.node == node && c.checkID == checkID) = none →
       DeleteCheck i node checkID s = s) ∧
    (KVSGet key s = none → KVSDelete i key s = s) ∧
    ((s.kvs.filter (fun e => strHasPre pre e.key)).isEmpty = true →
       KVSDeleteTree i pre s = s) ∧
    (GetSession sid s = none → SessionDestroy i sid s = s) ∧
    (ACLGet aid s = none → ACLDelete i aid s = s) ∧
    DeleteNode j name (DeleteNode i name s) = DeleteNode i name s ∧
    DeleteService j node svcID (DeleteService i node svcID s) = DeleteService i node svcID s ∧
    DeleteCheck j node checkID (DeleteCheck i node checkID s) = DeleteCheck i node checkID s ∧
    KVSDelete j key (KVSDelete i key s) = KVSDelete i key s ∧
    KVSDeleteTree j pre (KVSDeleteTree i pre s) = KVSDeleteTree i pre s ∧
    SessionDestroy j sid (SessionDestroy i sid s) = SessionDestroy i sid s ∧
    ACLDelete j aid (ACLDelete i aid s) = ACLDelete i aid s := by
  refine ⟨fun h => DeleteNode_noop i h, fun h => DeleteService_noop i h,
          fun h => DeleteCheck_noop i h, fun h => KVSDelete_noop i h,
          fun h => KVSDeleteTree_noop i h, fun h => SessionDestroy_noop i h,
          fun h => ACLDelete_noop i h, ?_, ?_, ?_, ?_, ?_, ?_, ?_⟩
  · exact DeleteNode_noop j (GetNode_after_DeleteNode i name s)
  · exact DeleteService_noop j (serviceFind_after_DeleteService i node svcID s)
  · exact DeleteCheck_noop j (checkFind_after_DeleteCheck i node checkID s)
  · exact KVSDelete_noop j (KVSGet_after_KVSDelete i key s)
  · exact KVSDeleteTree_noop j (treeFilter_after_KVSDeleteTree i pre s)
  · exact SessionDestroy_noop j (GetSession_after_SessionDestroy i sid s)
  · exact ACLDelete_noop j (ACLGet_after_ACLDelete i aid s)

/-- Witness for C6: the no-op conjuncts applied at a concrete store (a
single node "n1" at index 1) and targets that do not exist there. -/
theorem delete_idempotent_noop_witness :
    DeleteNode 2 "ghost" (EnsureNode 1 ⟨"n1", "1.1.1.1", 0, 0⟩ emptyStore) =
      EnsureNode 1 ⟨"n1", "1.1.1.1", 0, 0⟩ emptyStore ∧
    KVSDelete 2 "nope" (EnsureNode 1 ⟨"n1", "1.1.1.1", 0, 0⟩ emptyStore) =
      EnsureNode 1 ⟨"n1", "1.1.1.1", 0, 0⟩ emptyStore :=
  ⟨(delete_idempotent_noop (EnsureNode 1 ⟨"n1", "1.1.1.1", 0, 0⟩ emptyStore) 2 2
      "ghost" "n" "s" "c" "nope" "p" "x" "a").1 (by decide),
   (delete_idempotent_noop (EnsureNode 1 ⟨"n1", "1.1.1.1", 0, 0⟩ emptyStore) 2 2
      "ghost" "n" "s" "c" "nope" "p" "x" "a").2.2.2.1 (by decide)⟩

/-- C3: `KVSSetCAS(index, entry)` returns ok=true exactly when either
`entry.ModifyIndex = 0` and no live entry with that key exists, or a
live entry exists whose stored ModifyIndex equals `entry.ModifyIndex`;
on ok=false the whole store — the entry, its indexes and the kvs table
index — is unchanged.  The operation has no logical error path: its
result type carries no error, so no error is ever returned. -/
theorem kvsSetCAS_semantics (s : StateStore) (idx : Nat) (e : DirEntry) :
    ((KVSSetCAS idx e s).1 = true ↔
      (e.modifyIndex = 0 ∧ KVSGet e.key s = none) ∨
      (∃ old, KVSGet e.key s = some old ∧ old.modifyIndex = e.modifyIndex)) ∧
    ((KVSSetCAS idx e s).1 = false → (KVSSetCAS idx e s).2 = s) := by
  unfold KVSSetCAS
  cases h : KVSGet e.key s with
  | none =>
    by_cases hm : e.modifyIndex = 0
    · simp [hm]
    · simp [hm, Ne.symm hm]
  | some old =>
    by_cases hm : old.modifyIndex = e.modifyIndex
    · simp [hm]
    · constructor
      · constructor
        · intro hfalse
          simp [hm] at hfalse
        · rintro (⟨hz, hnone⟩ | ⟨old', hsome, hmi⟩)
          · exact absurd hnone (by simp)
          · injection hsome with hsome
            subst hsome
            exact absurd hmi hm
      · intro _
        simp [hm]

/-- Witness for C3: after `KVSSet 1 {foo ↦ a}` the stored ModifyIndex is
1, so a CAS carrying ModifyIndex 1 succeeds, and a CAS carrying
ModifyIndex 7 fails and leaves the store unchanged. -/
theorem kvsSetCAS_semantics_witness :
    (KVSSetCAS 2 ⟨"foo", "b", 0, 0, "", 1, 1⟩
       (KVSSet 1 ⟨"foo", "a", 0, 0, "", 0, 0⟩ emptyStore)).1 = true ∧
    (KVSSetCAS 2 ⟨"foo", "b", 0, 0, "", 7, 7⟩
       (KVSSet 1 ⟨"foo", "a", 0, 0, "", 0, 0⟩ emptyStore)).2 =
      KVSSet 1 ⟨"foo", "a", 0, 0, "", 0, 0⟩ emptyStore :=
  ⟨(kvsSetCAS_semantics (KVSSet 1 ⟨"foo", "a", 0, 0, "", 0, 0⟩ emptyStore) 2
      ⟨"foo", "b", 0, 0, "", 1, 1⟩).1.mpr
     (Or.inr ⟨⟨"foo", "a", 0, 0, "", 1, 1⟩, by decide, by decide⟩),
   (kvsSetCAS_semantics (KVSSet 1 ⟨"foo", "a", 0, 0, "", 0, 0⟩ emptyStore) 2
      ⟨"foo", "b", 0, 0, "", 7, 7⟩).2 (by decide)⟩

/-- C4: `ReapTombstones(upto)` deletes exactly the tombstones whose
index is at most `upto` (first conjunct: a tombstone survives the reap
iff it was there and its index exceeds `upto`).  Moreover, when the
result index of a prefix query came from a tombstone that the reap
removes — i.e. the index is positive, at most `upto`, and above every
matching live entry's ModifyIndex — the query's result index strictly
decreases, becoming the maximum ModifyIndex over the remaining live
entries under the prefix (all matching tombstones are gone). -/
theorem reapTombstones_semantics (s : StateStore) (upto : Nat) (pre : String) :
    (∀ t : Tombstone, t ∈ (ReapTombstones upto s).tombstones ↔
       t ∈ s.tombstones ∧ upto < t.index) ∧
    (0 < (KVSList pre s).1 → (KVSList pre s).1 ≤ upto →
     (∀ e ∈ s.kvs, strHasPre pre e.key = true → e.modifyIndex < (KVSList pre s).1) →
     (KVSList pre (ReapTombstones upto s)).1 < (KVSList pre s).1 ∧
     (KVSList pre (ReapTombstones upto s)).1 = kvsLiveMax pre s) := by
  constructor
  · intro t
    unfold ReapTombstones
    simp only [List.mem_filter, Bool.not_eq_true', decide_eq_false_iff_not, Nat.not_le]
  · intro hb0 hle hlive
    have hBdef : (KVSList pre s).1 = max (kvsLiveMax pre s) (kvsTombMax pre s) := rfl
    have hliveB : kvsLiveMax pre s < (KVSList pre s).1 := by
      unfold kvsLiveMax
      rw [natMax_lt_iff hb0]
      intro v hv
      obtain ⟨e, he, rfl⟩ := List.mem_map.mp hv
      have hm := List.mem_filter.mp he
      exact hlive e hm.1 hm.2
    have htombB : kvsTombMax pre s = (KVSList pre s).1 := by
      rcases max_choice (kvsLiveMax pre s) (kvsTombMax pre s) with h | h
      · exact absurd (hBdef.trans h).symm (Nat.ne_of_lt hliveB)
      · exact (hBdef.trans h).symm
    have hreapTomb : (ReapTombstones upto s).tombstones.filter
        (fun t => strHasPre pre t.key) = [] := by
      rw [List.filter_eq_nil_iff]
      intro t ht
      unfold ReapTombstones at ht
      have hm := List.mem_filter.mp ht
      have hgt : upto < t.index := by
        have := hm.2
        simp only [Bool.not_eq_true', decide_eq_false_iff_not, Nat.not_le] at this
        exact this
      intro hpre
      have htmem : t.index ∈ (s.tombstones.filter
          (fun t => strHasPre pre t.key)).map (fun t => t.index) :=
        List.mem_map.mpr ⟨t, List.mem_filter.mpr ⟨hm.1, hpre⟩, rfl⟩
      have : t.index ≤ kvsTombMax pre s := le_natMax_of_mem htmem
      omega
    have hafter : (KVSList pre (ReapTombstones upto s)).1 = kvsLiveMax pre s := by
      have h1 : kvsLiveMax pre (ReapTombstones upto s) = kvsLiveMax pre s := rfl
      have h2 : kvsTombMax pre (ReapTombstones upto s) = 0 := by
        unfold kvsTombMax
        rw [hreapTomb]
        rfl
      show max (kvsLiveMax pre (ReapTombstones upto s))
          (kvsTombMax pre (ReapTombstones upto s)) = kvsLiveMax pre s
      rw [h1, h2]
      exact Nat.max_eq_left (Nat.zero_le _)
    exact ⟨hafter ▸ hliveB, hafter⟩

/-- Witness for C4: the TestStateStore_ReapTombstones scenario — before
the reap the prefix query on "foo/" answers 7 (a tombstone); reaping up
to 7 drops the result index to the live maximum (5). -/
theorem reapTombstones_semantics_witness :
    (KVSList "foo/" (ReapTombstones 7 sReapScenario)).1 < (KVSList "foo/" sReapScenario).1 ∧
    (KVSList "foo/" (ReapTombstones 7 sReapScenario)).1 = kvsLiveMax "foo/" sReapScenario :=
  (reapTombstones_semantics sReapScenario 7 "foo/").2 (by decide) (by decide) (by decide)

/-- C7: a command whose masked message type is unrecognized (6 or
above) is skipped with a nil result and an unchanged store when the
ignore-if-unknown high bit (128) of the type byte is set, and panics
(modelled `.error .fatal`, producing no successor store) when it is
not. -/
theorem apply_unknown_type (s : StateStore) (i : Nat) (t : Nat) (p : Payload)
    (_hbyte : t < 256) (hunk : 6 ≤ t % 128) :
    (t / 128 = 1 → Apply s i t p = .ok (.rnil, s)) ∧
    (t / 128 = 0 → Apply s i t p = .error .fatal) := by
  have h0 : t % 128 ≠ 0 := by omega
  have h1 : t % 128 ≠ 1 := by omega
  have h2 : t % 128 ≠ 2 := by omega
  have h3 : t % 128 ≠ 3 := by omega
  have h4 : t % 128 ≠ 4 := by omega
  have h5 : t % 128 ≠ 5 := by omega
  constructor
  · intro hflag
    unfold Apply
    simp only [if_neg h0, if_neg h1, if_neg h2, if_neg h3, if_neg h4, if_neg h5, hflag,
      if_pos]
  · intro hflag
    unfold Apply
    simp only [if_neg h0, if_neg h1, if_neg h2, if_neg h3, if_neg h4, if_neg h5, hflag]
    simp

/-- Witness for C7: type byte 200 = 128 + 72 has the flag and an
unknown masked type (72), so the command is skipped; type byte 72 has
no flag, so it panics. -/
theorem apply_unknown_type_witness :
    Apply emptyStore 1 200 .undecodable = .ok (.rnil, emptyStore) ∧
    Apply emptyStore 1 72 .undecodable = .error .fatal :=
  ⟨(apply_unknown_type emptyStore 1 200 .undecodable (by decide) (by decide)).1 (by decide),
   (apply_unknown_type emptyStore 1 72 .undecodable (by decide) (by decide)).2 (by decide)⟩

/-- C10: a type byte with the ignore-if-unknown high bit set whose
remaining bits are a recognized message type (0–5) is processed exactly
as if the bit were absent: the flag is masked off before dispatch. -/
theorem apply_ignore_flag_masked (s : StateStore) (i : Nat) (t : Nat) (p : Payload)
    (ht : t ≤ 5) :
    Apply s i (t + 128) p = Apply s i t p := by
  interval_cases t <;> rfl

/-- Witness for C10: byte 130 (flag + KVS type 2) dispatches like byte
2. -/
theorem apply_ignore_flag_masked_witness :
    Apply emptyStore 4 130 (.kvsReq ⟨"set", ⟨"k", "v", 0, 0, "", 0, 0⟩⟩) =
      Apply emptyStore 4 2 (.kvsReq ⟨"set", ⟨"k", "v", 0, 0, "", 0, 0⟩⟩) :=
  apply_ignore_flag_masked emptyStore 4 2
    (.kvsReq ⟨"set", ⟨"k", "v", 0, 0, "", 0, 0⟩⟩) (by decide)

/-- C8: Apply on a Deregister command dispatches exactly one delete —
DeleteService when ServiceID is nonempty (even when CheckID is also
nonempty), else DeleteCheck when CheckID is nonempty, else DeleteNode —
and returns nil; the modelled state-store deletes have no logical
error path, so an error value can only arise from the database layer,
where the Go code returns it to the caller. -/
theorem apply_deregister_dispatch (s : StateStore) (i : Nat) (req : DeregisterRequest) :
    (req.serviceID ≠ "" →
       Apply s i 1 (.deregister req) =
         .ok (.rnil, DeleteService i req.node req.serviceID s)) ∧
    (req.serviceID = "" → req.checkID ≠ "" →
       Apply s i 1 (.deregister req) =
         .ok (.rnil, DeleteCheck i req.node req.checkID s)) ∧
    (req.serviceID = "" → req.checkID = "" →
       Apply s i 1 (.deregister req) =
         .ok (.rnil, DeleteNode i req.node s)) := by
  refine ⟨fun hs => ?_, fun hs hc => ?_, fun hs hc => ?_⟩
  · show Except.ok (applyDeregister s i req) = _
    unfold applyDeregister
    simp [hs]
  · show Except.ok (applyDeregister s i req) = _
    unfold applyDeregister
    simp [hs, hc]
  · show Except.ok (applyDeregister s i req) = _
    unfold applyDeregister
    simp [hs, hc]

/-- Witness for C8: a request carrying both a ServiceID and a CheckID
dispatches DeleteService, pinning the precedence. -/
theorem apply_deregister_dispatch_witness :
    Apply emptyStore 3 1 (.deregister ⟨"foo", "db", "mem"⟩) =
      .ok (.rnil, DeleteService 3 "foo" "db" emptyStore) :=
  (apply_deregister_dispatch emptyStore 3 ⟨"foo", "db", "mem"⟩).1 (by decide)

/-- C5: with a nonempty, existing session in the request — locking a
fresh key stores it with the session as holder and LockIndex 1;
re-locking a key already held by the same session keeps its LockIndex
(no bump) while still returning ok=true; locking an unheld existing key
(a new holder's first acquisition) increments LockIndex; a key held by
a different session is not mutated and yields ok=false.  Unlocking by
the holder clears the session field, preserves LockIndex and returns
ok=true; unlocking by a non-holder (or of a missing key) returns
ok=false without mutation. -/
theorem kvs_lock_unlock_semantics (s : StateStore) (idx : Nat) (e : DirEntry)
    (hs : e.session ≠ "") (hsess : GetSession e.session s ≠ none) :
    (KVSGet e.key s = none →
       ∃ s', KVSLock idx e s = .ok (true, s') ∧
         KVSGet e.key s' =
           some { e with lockIndex := 1, createIndex := idx, modifyIndex := idx }) ∧
    (∀ old, KVSGet e.key s = some old → old.session = e.session →
       ∃ s', KVSLock idx e s = .ok (true, s') ∧
         KVSGet e.key s' =
           some { e with lockIndex := old.lockIndex,
                         createIndex := old.createIndex, modifyIndex := idx }) ∧
    (∀ old, KVSGet e.key s = some old → old.session = "" →
       ∃ s', KVSLock idx e s = .ok (true, s') ∧
         KVSGet e.key s' =
           some { e with lockIndex := old.lockIndex + 1,
                         createIndex := old.createIndex, modifyIndex := idx }) ∧
    (∀ old, KVSGet e.key s = some old → old.session ≠ "" → old.session ≠ e.session →
       KVSLock idx e s = .ok (false, s)) ∧
    (∀ old, KVSGet e.key s = some old → old.session = e.session →
       ∃ s', KVSUnlock idx e s = (true, s') ∧
         KVSGet e.key s' =
           some { e with session := "", lockIndex := old.lockIndex,
                         createIndex := old.createIndex, modifyIndex := idx }) ∧
    (∀ old, KVSGet e.key s = some old → old.session ≠ e.session →
       KVSUnlock idx e s = (false, s)) ∧
    (KVSGet e.key s = none → KVSUnlock idx e s = (false, s)) := by
  obtain ⟨sess, hgs⟩ := Option.ne_none_iff_exists'.mp hsess
  have hsb : (e.session == "") = false := beq_eq_false_iff_ne.mpr hs
  refine ⟨?_, ?_, ?_, ?_, ?_, ?_, ?_⟩
  · intro h
    unfold KVSLock
    rw [hsb, hgs, h]
    refine ⟨_, rfl, ?_⟩
    show List.find? _ (s.kvs ++ [_]) = _
    rw [List.find?_append, List.find?_eq_none.mpr (fun x hx hpx => by
      have := List.find?_eq_none.mp h x hx
      exact this hpx)]
    simp
  · intro old hold holds
    unfold KVSLock
    rw [hsb, hgs, hold]
    dsimp only
    have hcond : (old.session != "" && old.session != e.session) = false := by
      simp [holds]
    rw [if_neg (by simp [hcond] : ¬ (old.session != "" && old.session != e.session) = true)]
    have hli : (if old.session == e.session then old.lockIndex else old.lockIndex + 1) =
        old.lockIndex := by simp [holds]
    refine ⟨_, rfl, ?_⟩
    show List.find? _ (List.map _ s.kvs) = _
    rw [hli]
    exact find?_map_update (fun (x : DirEntry) => x.key == e.key)
      (fun _ => { e with lockIndex := old.lockIndex,
                         createIndex := old.createIndex, modifyIndex := idx })
      s.kvs old hold (by simp)
  · intro old hold holde
    unfold KVSLock
    rw [hsb, hgs, hold]
    dsimp only
    have hne : old.session ≠ e.session := by rw [holde]; exact fun h => hs h.symm
    have hcond : (old.session != "" && old.session != e.session) = false := by
      simp [holde]
    rw [if_neg (by simp [hcond] : ¬ (old.session != "" && old.session != e.session) = true)]
    have hli : (if old.session == e.session then old.lockIndex else old.lockIndex + 1) =
        old.lockIndex + 1 := by simp [hne]
    refine ⟨_, rfl, ?_⟩
    show List.find? _ (List.map _ s.kvs) = _
    rw [hli]
    exact find?_map_update (fun (x : DirEntry) => x.key == e.key)
      (fun _ => { e with lockIndex := old.lockIndex + 1,
                         createIndex := old.createIndex, modifyIndex := idx })
      s.kvs old hold (by simp)
  · intro old hold h1 h2
    unfold KVSLock
    rw [hsb, hgs, hold]
    dsimp only
    rw [if_pos (show (old.session != "" && old.session != e.session) = true by
      rw [Bool.and_eq_true, bne_iff_ne, bne_iff_ne]; exact ⟨h1, h2⟩)]
    rfl
  · intro old hold holds
    unfold KVSUnlock
    rw [hold]
    dsimp only
    rw [if_neg (by simp [holds] : ¬ (old.session != e.session) = true)]
    refine ⟨_, rfl, ?_⟩
    show List.find? _ (List.map _ s.kvs) = _
    exact find?_map_update (fun (x : DirEntry) => x.key == e.key)
      (fun _ => { e with session := "", lockIndex := old.lockIndex,
                         createIndex := old.createIndex, modifyIndex := idx })
      s.kvs old hold (by simp)
  · intro old hold hne
    unfold KVSUnlock
    rw [hold]
    dsimp only
    rw [if_pos (show (old.session != e.session) = true by
      rw [bne_iff_ne]; exact hne)]
  · intro h
    unfold KVSUnlock
    rw [h]

/-- Witness for C5: node n1 with session sess1 at index 2; locking the
fresh key k yields LockIndex 1 with sess1 as holder. -/
theorem kvs_lock_unlock_semantics_witness :
    ∃ s', KVSLock 3 ⟨"k", "v", 0, 0, "sess1", 0, 0⟩
        (tryOp (SessionCreate 2 ⟨"sess1", "n1", [], "", 0, 0⟩)
          (EnsureNode 1 ⟨"n1", "1.1.1.1", 0, 0⟩ emptyStore)) = .ok (true, s') ∧
      KVSGet "k" s' = some ⟨"k", "v", 0, 1, "sess1", 3, 3⟩ :=
  (kvs_lock_unlock_semantics
    (tryOp (SessionCreate 2 ⟨"sess1", "n1", [], "", 0, 0⟩)
      (EnsureNode 1 ⟨"n1", "1.1.1.1", 0, 0⟩ emptyStore)) 3
    ⟨"k", "v", 0, 0, "sess1", 0, 0⟩ (by decide) (by decide)).1 (by decide)

/-! ### The restore loop -/

theorem restoreLoop_spec (lastIndex : Nat) :
    ∀ (rs : List SnapRecord) (t : StateStore),
      ((restoreLoop lastIndex t rs).1 = none ↔ rs.all SnapRecord.isGood = true) ∧
      (restoreLoop lastIndex t rs).2 =
        (rs.takeWhile SnapRecord.isGood).foldl (restoreStep lastIndex) t := by
  intro rs
  induction rs with
  | nil => intro t; simp [restoreLoop]
  | cons r rest ih =>
    intro t
    cases r with
    | unknown tb =>
      simp [restoreLoop, SnapRecord.isGood, List.takeWhile_cons]
    | corrupt =>
      simp [restoreLoop, SnapRecord.isGood, List.takeWhile_cons]
    | register req =>
      have h := ih (restoreStep lastIndex t (.register req))
      simpa [restoreLoop, SnapRecord.isGood, List.takeWhile_cons] using h
    | kv e =>
      have h := ih (restoreStep lastIndex t (.kv e))
      simpa [restoreLoop, SnapRecord.isGood, List.takeWhile_cons] using h
    | session x =>
      have h := ih (restoreStep lastIndex t (.session x))
      simpa [restoreLoop, SnapRecord.isGood, List.takeWhile_cons] using h
    | acl a =>
      have h := ih (restoreStep lastIndex t (.acl a))
      simpa [restoreLoop, SnapRecord.isGood, List.takeWhile_cons] using h
    | tombstone e =>
      have h := ih (restoreStep lastIndex t (.tombstone e))
      simpa [restoreLoop, SnapRecord.isGood, List.takeWhile_cons] using h

/-- C2 (amended): a Restore error — header decode failure, record
decode failure, or an unrecognized record type — is propagated to the
caller (Restore succeeds exactly when the header decodes and every
record is good), but the store discarded is the FSM's PREVIOUS one:
`c.state` is replaced with the fresh store before decoding begins, so
after an error the FSM holds the partially-populated fresh store (the
fold of the records before the failure), whatever store it held
before. -/
theorem restore_error_keeps_partial (fsm : FSM) (st : SnapStream) :
    ((Restore fsm st).1 = none ↔
       st.header.isSome = true ∧ st.records.all SnapRecord.isGood = true) ∧
    (Restore fsm st).2.state =
      (match st.header with
       | none => emptyStore
       | some lastIndex =>
           (st.records.takeWhile SnapRecord.isGood).foldl
             (restoreStep lastIndex) emptyStore) := by
  cases hh : st.header with
  | none => simp [Restore, hh]
  | some lastIndex =>
    have h := restoreLoop_spec lastIndex st.records emptyStore
    unfold Restore
    rw [hh]
    dsimp only
    rcases hr : restoreLoop lastIndex emptyStore st.records with ⟨e0, s0⟩
    rw [hr] at h
    constructor
    · simpa using h.1
    · simpa using h.2

/-- Witness for C2: a well-formed two-record stream restores without
error into the fold of its records. -/
theorem restore_error_keeps_partial_witness :
    ((Restore { state := emptyStore }
        { header := some 5,
          records := [.kv ⟨"/a", "x", 0, 0, "", 3, 3⟩] }).1 = none ↔
       (Option.isSome (some (5 : Nat)) = true ∧
        List.all [SnapRecord.kv ⟨"/a", "x", 0, 0, "", 3, 3⟩] SnapRecord.isGood = true)) ∧
    (Restore { state := emptyStore }
        { header := some 5,
          records := [.kv ⟨"/a", "x", 0, 0, "", 3, 3⟩] }).2.state =
      List.foldl (restoreStep 5) emptyStore
        (List.takeWhile SnapRecord.isGood [SnapRecord.kv ⟨"/a", "x", 0, 0, "", 3, 3⟩]) :=
  restore_error_keeps_partial { state := emptyStore }
    { header := some 5, records := [.kv ⟨"/a", "x", 0, 0, "", 3, 3⟩] }

/-- Counterexample to C2 as stated: a stream whose second record fails
to decode makes Restore return an error, yet the FSM's state afterwards
IS the partially-populated store — it holds the K/V entry restored from
the first record — rather than being discarded. -/
theorem restore_error_counterexample :
    (Restore { state := KVSSet 1 ⟨"old", "v", 0, 0, "", 0, 0⟩ emptyStore }
        { header := some 5,
          records := [.kv ⟨"/part", "x", 0, 0, "", 3, 3⟩, .corrupt] }).1 =
      some .recordDecodeFailure ∧
    (Restore { state := KVSSet 1 ⟨"old", "v", 0, 0, "", 0, 0⟩ emptyStore }
        { header := some 5,
          records := [.kv ⟨"/part", "x", 0, 0, "", 3, 3⟩, .corrupt] }).2.state =
      KVSRestore ⟨"/part", "x", 0, 0, "", 3, 3⟩ emptyStore ∧
    (Restore { state := KVSSet 1 ⟨"old", "v", 0, 0, "", 0, 0⟩ emptyStore }
        { header := some 5,
          records := [.kv ⟨"/part", "x", 0, 0, "", 3, 3⟩, .corrupt] }).2.state.kvs =
      [⟨"/part", "x", 0, 0, "", 3, 3⟩] := by
  refine ⟨rfl, rfl, rfl⟩

/-! ### The checks-for-service join -/

theorem csnRowMax_append (l : List CheckServiceNode) (r : CheckServiceNode) :
    csnRowMax (l ++ [r]) = max (csnRowMax l) (csnRowIdx r) := by
  induction l with
  | nil => simp [csnRowMax]
  | cons a t ih =>
    show max (csnRowIdx a) (csnRowMax (t ++ [r])) =
      max (max (csnRowIdx a) (csnRowMax t)) (csnRowIdx r)
    rw [ih, Nat.max_assoc]

theorem csn_fold_invariant (s : StateStore) (name : String) :
    ∀ (l : List (String × NodeService)) (acc : Nat × List CheckServiceNode),
      acc.1 = csnRowMax acc.2 →
      (l.foldl (csnStep s name) acc).1 = csnRowMax (l.foldl (csnStep s name) acc).2 := by
  intro l
  induction l with
  | nil => intro acc h; exact h
  | cons pr t ih =>
    intro acc h
    simp only [List.foldl_cons]
    apply ih
    unfold csnStep
    split
    · cases hn : GetNode pr.1 s with
      | none => exact h
      | some nd =>
        simp only
        rw [csnRowMax_append, ← h]
        rfl
    · exact h

theorem csn_fold_bound (s : StateStore) (name : String) (hidx : wfIndexes s) :
    ∀ (l : List (String × NodeService)) (acc : Nat × List CheckServiceNode),
      (∀ pr ∈ l, pr ∈ s.services) → acc.1 ≤ maxIndexCatalog s →
      (l.foldl (csnStep s name) acc).1 ≤ maxIndexCatalog s := by
  intro l
  induction l with
  | nil => intro acc _ h; exact h
  | cons pr t ih =>
    intro acc hmem hacc
    simp only [List.foldl_cons]
    refine ih _ (fun q hq => hmem q (List.mem_cons_of_mem _ hq)) ?_
    unfold csnStep
    split
    · cases hn : GetNode pr.1 s with
      | none => exact hacc
      | some nd =>
        have hnd : nd.modifyIndex ≤ s.index.nodes :=
          hidx.1 nd (List.mem_of_find?_eq_some hn)
        have hsv : pr.2.modifyIndex ≤ s.index.services :=
          hidx.2.1 pr (hmem pr (List.mem_cons_self pr t))
        have hck : natMax ((s.checks.filter
            (fun c => c.node == pr.1 && c.serviceID == pr.2.id)).map
              (fun c => c.modifyIndex)) ≤ s.index.checks := by
          rw [natMax_le_iff]
          intro v hv
          obtain ⟨c, hc, rfl⟩ := List.mem_map.mp hv
          exact hidx.2.2 c (List.mem_filter.mp hc).1
        show max acc.1 _ ≤ maxIndexCatalog s
        unfold maxIndexCatalog at hacc ⊢
        omega
    · exact hacc

/-- C9 (amended): the result index of `CheckServiceNodes` is the
largest ModifyIndex over the rows of the result set — each matching
service, its node and its service checks.  Under the IndexRow invariant
it never exceeds `max(IndexRow[nodes], IndexRow[services],
IndexRow[checks])`, but it can be strictly smaller, so only mutations
to the returned rows are guaranteed to produce a strictly newer index;
a mutation elsewhere in the three tables need not. -/
theorem checkServiceNodes_result_index (s : StateStore) (name : String)
    (hidx : wfIndexes s) :
    (CheckServiceNodes name s).1 = csnRowMax (CheckServiceNodes name s).2 ∧
    (CheckServiceNodes name s).1 ≤ maxIndexCatalog s := by
  constructor
  · exact csn_fold_invariant s name s.services (0, []) rfl
  · exact csn_fold_bound s name hidx s.services (0, []) (fun pr h => h)
      (Nat.zero_le _)

/-- Witness for C9's amended theorem at the
TestStateStore_CheckServiceNodes store. -/
theorem checkServiceNodes_result_index_witness :
    (CheckServiceNodes "service1" sJoinScenario).1 =
      csnRowMax (CheckServiceNodes "service1" sJoinScenario).2 ∧
    (CheckServiceNodes "service1" sJoinScenario).1 ≤ maxIndexCatalog sJoinScenario :=
  checkServiceNodes_result_index sJoinScenario "service1" (by decide)

/-- Counterexample to C9 as stated: in the
TestStateStore_CheckServiceNodes store the query's result index is 6 —
as the test itself asserts at part_000 line 950 — while the maximum of
the nodes, services and checks IndexRows is 7, so the two differ. -/
theorem checkServiceNodes_counterexample :
    (CheckServiceNodes "service1" sJoinScenario).1 = 6 ∧
    maxIndexCatalog sJoinScenario = 7 ∧
    (CheckServiceNodes "service1" sJoinScenario).1 ≠ maxIndexCatalog sJoinScenario := by
  refine ⟨rfl, rfl, by decide⟩

/-! ### Snapshot/restore round trip: infrastructure -/

/-- What a restore step must not touch while the catalog stages run:
the K/V, tombstone, session and ACL tables. -/
def kvPreserved (t u : StateStore) : Prop :=
  u.kvs = t.kvs ∧ u.tombstones = t.tombstones ∧
  u.sessions = t.sessions ∧ u.acls = t.acls

theorem kvPreserved_refl (t : StateStore) : kvPreserved t t :=
  ⟨rfl, rfl, rfl, rfl⟩

theorem kvPreserved_trans {t u v : StateStore}
    (h1 : kvPreserved t u) (h2 : kvPreserved u v) : kvPreserved t v :=
  ⟨h2.1.trans h1.1, h2.2.1.trans h1.2.1, h2.2.2.1.trans h1.2.2.1,
   h2.2.2.2.trans h1.2.2.2⟩

theorem EnsureNode_kvPreserved (idx : Nat) (n : Node) (t : StateStore) :
    kvPreserved t (EnsureNode idx n t) := by
  unfold EnsureNode
  cases GetNode n.node t <;> exact ⟨rfl, rfl, rfl, rfl⟩

theorem EnsureService_kvPreserved (idx : Nat) (node : String) (sv : NodeService)
    (t t' : StateStore) (h : EnsureService idx node sv t = .ok t') :
    kvPreserved t t' := by
  unfold EnsureService at h
  cases hg : GetNode node t with
  | none => rw [hg] at h; exact Except.noConfusion h
  | some _ =>
    rw [hg] at h
    cases hf : t.services.find? (fun pr => pr.1 == node && pr.2.id == sv.id) with
    | none => rw [hf] at h; cases h; exact ⟨rfl, rfl, rfl, rfl⟩
    | some _ => rw [hf] at h; cases h; exact ⟨rfl, rfl, rfl, rfl⟩

theorem EnsureCheck_kvPreserved (idx : Nat) (c : HealthCheck) (t t' : StateStore)
    (h : EnsureCheck idx c t = .ok t') : kvPreserved t t' := by
  unfold EnsureCheck at h
  cases hg : GetNode c.node t with
  | none => rw [hg] at h; exact Except.noConfusion h
  | some _ =>
    rw [hg] at h
    dsimp only at h
    split at h
    · exact Except.noConfusion h
    · rename_i c' heq
      cases hf : t.checks.find? (fun old => old.node == c.node && old.checkID == c.checkID) with
      | none => rw [hf] at h; cases h; exact ⟨rfl, rfl, rfl, rfl⟩
      | some _ => rw [hf] at h; cases h; exact ⟨rfl, rfl, rfl, rfl⟩

theorem EnsureRegistration_kvPreserved (idx : Nat) (req : RegisterRequest)
    (t t' : StateStore) (h : EnsureRegistration idx req t = .ok t') :
    kvPreserved t t' := by
  unfold EnsureRegistration at h
  dsimp only at h
  set t1 := EnsureNode idx
    { node := req.node, address := req.address, createIndex := 0, modifyIndex := 0 } t with ht1
  have h1 : kvPreserved t t1 := EnsureNode_kvPreserved _ _ t
  cases hsv : (match req.service with
      | none => Except.ok t1
      | some sv => EnsureService idx req.node sv t1 : Except StoreError StateStore) with
  | error e => rw [hsv] at h; exact Except.noConfusion h
  | ok t2 =>
    have h2 : kvPreserved t1 t2 := by
      cases hreq : req.service with
      | none => rw [hreq] at hsv; cases hsv; exact kvPreserved_refl t1
      | some sv => rw [hreq] at hsv; exact EnsureService_kvPreserved idx req.node sv t1 t2 hsv
    rw [hsv] at h
    dsimp only at h
    cases hck : (match req.check with
        | none => Except.ok t2
        | some c => EnsureCheck idx c t2 : Except StoreError StateStore) with
    | error e => rw [hck] at h; exact Except.noConfusion h
    | ok t3 =>
      have h3 : kvPreserved t2 t3 := by
        cases hreq : req.check with
        | none => rw [hreq] at hck; cases hck; exact kvPreserved_refl t2
        | some c => rw [hreq] at hck; exact EnsureCheck_kvPreserved idx c t2 t3 hck
      rw [hck] at h
      dsimp only at h
      have h4 : kvPreserved t3 t' :=
        foldlM_except_pres (fun acc c => EnsureCheck idx c acc) (kvPreserved t3)
          (fun u a u' hu hP => kvPreserved_trans hP (EnsureCheck_kvPreserved idx a u u' hu))
          req.checks t3 t' h (kvPreserved_refl t3)
      exact kvPreserved_trans (kvPreserved_trans (kvPreserved_trans h1 h2) h3) h4

theorem applyRegister_kvPreserved (t : StateStore) (idx : Nat) (req : RegisterRequest) :
    kvPreserved t (applyRegister t idx req).2 := by
  unfold applyRegister
  cases h : EnsureRegistration idx req t with
  | ok t' => exact EnsureRegistration_kvPreserved idx req t t' h
  | error e => exact kvPreserved_refl t

theorem foldl_pres_mem {σ α : Type} (f : σ → α → σ) (P : σ → Prop) :
    ∀ (l : List α), (∀ t a, a ∈ l → P t → P (f t a)) →
      ∀ t, P t → P (l.foldl f t) := by
  intro l
  induction l with
  | nil => intro _ t ht; exact ht
  | cons a l ih =>
    intro hf t ht
    exact ih (fun u b hb hu => hf u b (List.mem_cons_of_mem _ hb) hu) (f t a)
      (hf t a (List.mem_cons_self a l) ht)

theorem KVSRestore_catalog (e : DirEntry) (t : StateStore) :
    (KVSRestore e t).nodes = t.nodes ∧ (KVSRestore e t).services = t.services ∧
    (KVSRestore e t).checks = t.checks ∧ (KVSRestore e t).sessions = t.sessions ∧
    (KVSRestore e t).tombstones = t.tombstones ∧ (KVSRestore e t).acls = t.acls := by
  unfold KVSRestore
  cases KVSGet e.key t <;> exact ⟨rfl, rfl, rfl, rfl, rfl, rfl⟩

theorem SessionRestore_catalog (x : Session) (t : StateStore) :
    (SessionRestore x t).nodes = t.nodes ∧ (SessionRestore x t).services = t.services ∧
    (SessionRestore x t).checks = t.checks ∧ (SessionRestore x t).kvs = t.kvs ∧
    (SessionRestore x t).tombstones = t.tombstones ∧ (SessionRestore x t).acls = t.acls := by
  unfold SessionRestore
  cases GetSession x.id t <;> exact ⟨rfl, rfl, rfl, rfl, rfl, rfl⟩

theorem ACLRestore_catalog (a : ACL) (t : StateStore) :
    (ACLRestore a t).nodes = t.nodes ∧ (ACLRestore a t).services = t.services ∧
    (ACLRestore a t).checks = t.checks ∧ (ACLRestore a t).kvs = t.kvs ∧
    (ACLRestore a t).tombstones = t.tombstones ∧ (ACLRestore a t).sessions = t.sessions := by
  unfold ACLRestore
  cases ACLGet a.id t <;> exact ⟨rfl, rfl, rfl, rfl, rfl, rfl⟩

/-! Stage folds of the restore loop over the non-catalog record kinds:
with fresh, pairwise-distinct identifiers each stage appends the dumped
rows in order and leaves every other table alone. -/

theorem sessionFold_spec (L : Nat) :
    ∀ (xs : List Session) (t : StateStore),
      (∀ x ∈ xs, ∀ y ∈ t.sessions, y.id ≠ x.id) →
      xs.Pairwise (fun a b => a.id ≠ b.id) →
      letI T := (xs.map SnapRecord.session).foldl (restoreStep L) t
      T.sessions = t.sessions ++ xs ∧ T.nodes = t.nodes ∧ T.services = t.services ∧
      T.checks = t.checks ∧ T.kvs = t.kvs ∧ T.tombstones = t.tombstones ∧
      T.acls = t.acls := by
  intro xs
  induction xs with
  | nil => intro t _ _; exact ⟨(List.append_nil _).symm, rfl, rfl, rfl, rfl, rfl, rfl⟩
  | cons x xs ih =>
    intro t hfresh hpw
    have hnone : GetSession x.id t = none := by
      unfold GetSession
      rw [List.find?_eq_none]
      intro y hy
      simp only [beq_iff_eq]
      exact hfresh x (List.mem_cons_self x xs) y hy
    have hsess : (SessionRestore x t).sessions = t.sessions ++ [x] := by
      unfold SessionRestore
      rw [hnone]
    have hcat := SessionRestore_catalog x t
    have hfresh2 : ∀ z ∈ xs, ∀ y ∈ (SessionRestore x t).sessions, y.id ≠ z.id := by
      rw [hsess]
      intro z hz y hy
      rcases List.mem_append.mp hy with hy | hy
      · exact hfresh z (List.mem_cons_of_mem _ hz) y hy
      · rcases List.mem_singleton.mp hy with rfl
        exact (List.pairwise_cons.mp hpw).1 z hz
    have h := ih (SessionRestore x t) hfresh2 (List.pairwise_cons.mp hpw).2
    have hstep : (List.map SnapRecord.session (x :: xs)).foldl (restoreStep L) t =
        (List.map SnapRecord.session xs).foldl (restoreStep L) (SessionRestore x t) := rfl
    rw [hstep]
    refine ⟨?_, h.2.1.trans hcat.1, h.2.2.1.trans hcat.2.1, h.2.2.2.1.trans hcat.2.2.1,
      h.2.2.2.2.1.trans hcat.2.2.2.1, h.2.2.2.2.2.1.trans hcat.2.2.2.2.1,
      h.2.2.2.2.2.2.trans hcat.2.2.2.2.2⟩
    rw [h.1, hsess, List.append_assoc, List.singleton_append]

theorem aclFold_spec (L : Nat) :
    ∀ (xs : List ACL) (t : StateStore),
      (∀ x ∈ xs, ∀ y ∈ t.acls, y.id ≠ x.id) →
      xs.Pairwise (fun a b => a.id ≠ b.id) →
      letI T := (xs.map SnapRecord.acl).foldl (restoreStep L) t
      T.acls = t.acls ++ xs ∧ T.nodes = t.nodes ∧ T.services = t.services ∧
      T.checks = t.checks ∧ T.kvs = t.kvs ∧ T.tombstones = t.tombstones ∧
      T.sessions = t.sessions := by
  intro xs
  induction xs with
  | nil => intro t _ _; exact ⟨(List.append_nil _).symm, rfl, rfl, rfl, rfl, rfl, rfl⟩
  | cons x xs ih =>
    intro t hfresh hpw
    have hnone : ACLGet x.id t = none := by
      unfold ACLGet
      rw [List.find?_eq_none]
      intro y hy
      simp only [beq_iff_eq]
      exact hfresh x (List.mem_cons_self x xs) y hy
    have hacl : (ACLRestore x t).acls = t.acls ++ [x] := by
      unfold ACLRestore
      rw [hnone]
    have hcat := ACLRestore_catalog x t
    have hfresh2 : ∀ z ∈ xs, ∀ y ∈ (ACLRestore x t).acls, y.id ≠ z.id := by
      rw [hacl]
      intro z hz y hy
      rcases List.mem_append.mp hy with hy | hy
      · exact hfresh z (List.mem_cons_of_mem _ hz) y hy
      · rcases List.mem_singleton.mp hy with rfl
        exact (List.pairwise_cons.mp hpw).1 z hz
    have h := ih (ACLRestore x t) hfresh2 (List.pairwise_cons.mp hpw).2
    have hstep : (List.map SnapRecord.acl (x :: xs)).foldl (restoreStep L) t =
        (List.map SnapRecord.acl xs).foldl (restoreStep L) (ACLRestore x t) := rfl
    rw [hstep]
    refine ⟨?_, h.2.1.trans hcat.1, h.2.2.1.trans hcat.2.1, h.2.2.2.1.trans hcat.2.2.1,
      h.2.2.2.2.1.trans hcat.2.2.2.1, h.2.2.2.2.2.1.trans hcat.2.2.2.2.1,
      h.2.2.2.2.2.2.trans hcat.2.2.2.2.2⟩
    rw [h.1, hacl, List.append_assoc, List.singleton_append]

theorem kvFold_spec (L : Nat) :
    ∀ (xs : List DirEntry) (t : StateStore),
      (∀ x ∈ xs, ∀ y ∈ t.kvs, y.key ≠ x.key) →
      xs.Pairwise (fun a b => a.key ≠ b.key) →
      letI T := (xs.map SnapRecord.kv).foldl (restoreStep L) t
      T.kvs = t.kvs ++ xs ∧ T.nodes = t.nodes ∧ T.services = t.services ∧
      T.checks = t.checks ∧ T.sessions = t.sessions ∧ T.tombstones = t.tombstones ∧
      T.acls = t.acls := by
  intro xs
  induction xs with
  | nil => intro t _ _; exact ⟨(List.append_nil _).symm, rfl, rfl, rfl, rfl, rfl, rfl⟩
  | cons x xs ih =>
    intro t hfresh hpw
    have hnone : KVSGet x.key t = none := by
      unfold KVSGet
      rw [List.find?_eq_none]
      intro y hy
      simp only [beq_iff_eq]
      exact hfresh x (List.mem_cons_self x xs) y hy
    have hkv : (KVSRestore x t).kvs = t.kvs ++ [x] := by
      unfold KVSRestore
      rw [hnone]
    have hcat := KVSRestore_catalog x t
    have hfresh2 : ∀ z ∈ xs, ∀ y ∈ (KVSRestore x t).kvs, y.key ≠ z.key := by
      rw [hkv]
      intro z hz y hy
      rcases List.mem_append.mp hy with hy | hy
      · exact hfresh z (List.mem_cons_of_mem _ hz) y hy
      · rcases List.mem_singleton.mp hy with rfl
        exact (List.pairwise_cons.mp hpw).1 z hz
    have h := ih (KVSRestore x t) hfresh2 (List.pairwise_cons.mp hpw).2
    have hstep : (List.map SnapRecord.kv (x :: xs)).foldl (restoreStep L) t =
        (List.map SnapRecord.kv xs).foldl (restoreStep L) (KVSRestore x t) := rfl
    rw [hstep]
    refine ⟨?_, h.2.1.trans hcat.1, h.2.2.1.trans hcat.2.1, h.2.2.2.1.trans hcat.2.2.1,
      h.2.2.2.2.1.trans hcat.2.2.2.1, h.2.2.2.2.2.1.trans hcat.2.2.2.2.1,
      h.2.2.2.2.2.2.trans hcat.2.2.2.2.2⟩
    rw [h.1, hkv, List.append_assoc, List.singleton_append]

theorem tombFold_spec (L : Nat) :
    ∀ (xs : List Tombstone) (t : StateStore),
      letI T := (xs.map (fun tb => SnapRecord.tombstone (tombFake tb))).foldl
        (restoreStep L) t
      T.tombstones = t.tombstones ++ xs ∧ T.nodes = t.nodes ∧ T.services = t.services ∧
      T.checks = t.checks ∧ T.sessions = t.sessions ∧ T.kvs = t.kvs ∧
      T.acls = t.acls := by
  intro xs
  induction xs with
  | nil => intro t; exact ⟨(List.append_nil _).symm, rfl, rfl, rfl, rfl, rfl, rfl⟩
  | cons x xs ih =>
    intro t
    have hstep : (List.map (fun tb => SnapRecord.tombstone (tombFake tb)) (x :: xs)).foldl
        (restoreStep L) t =
        (List.map (fun tb => SnapRecord.tombstone (tombFake tb)) xs).foldl (restoreStep L)
          (TombstoneRestore x t) := rfl
    rw [hstep]
    have h := ih (TombstoneRestore x t)
    have htb : (TombstoneRestore x t).tombstones = t.tombstones ++ [x] := rfl
    refine ⟨?_, h.2.1, h.2.2.1, h.2.2.2.1, h.2.2.2.2.1, h.2.2.2.2.2.1, h.2.2.2.2.2.2⟩
    rw [h.1, htb, List.append_assoc, List.singleton_append]

/-! The register stage of the restore loop.  Each node's records are
re-applied through EnsureRegistration at the header's LastIndex: the
first record inserts the node with both indexes set to LastIndex, and
the subsequent service and check records re-upsert the node as a
no-op. -/

theorem map_update_id {α : Type} (l : List α) (f : α → α) (h : ∀ x ∈ l, f x = x) :
    l.map f = l := by
  rw [List.map_congr_left h]
  exact List.map_id' l

theorem nodesShape_getNode (L : Nat) (n : Node) (N0 : List Node) (t : StateStore)
    (ht : t.nodes = N0 ++ [normNode L n]) (hN0 : ∀ m ∈ N0, m.node ≠ n.node) :
    GetNode n.node t = some (normNode L n) := by
  unfold GetNode
  rw [ht, List.find?_append]
  have h1 : N0.find? (fun m => m.node == n.node) = none := by
    rw [List.find?_eq_none]
    intro m hm
    simp only [beq_iff_eq]
    exact hN0 m hm
  rw [h1]
  simp [normNode]

theorem nodesShape_mapId (L : Nat) (n : Node) (N0 : List Node) (t : StateStore)
    (ht : t.nodes = N0 ++ [normNode L n]) (hN0 : ∀ m ∈ N0, m.node ≠ n.node) :
    t.nodes.map (fun old => if old.node == n.node then
      { old with address := n.address, modifyIndex := L } else old) = t.nodes := by
  apply map_update_id
  intro m hm
  rw [ht] at hm
  rcases List.mem_append.mp hm with hm | hm
  · rw [if_neg]
    simp only [beq_iff_eq]
    exact hN0 m hm
  · rcases List.mem_singleton.mp hm with rfl
    rw [if_pos (by simp [normNode])]
    rfl

theorem applyRegister_nodeOnly (L : Nat) (n : Node) (t : StateStore)
    (h : GetNode n.node t = none) :
    (applyRegister t L (nodeOnlyReq n)).2 =
      { t with nodes := t.nodes ++ [normNode L n], index.nodes := L } := by
  unfold applyRegister EnsureRegistration nodeOnlyReq EnsureNode
  dsimp only
  rw [h]
  rfl

theorem applyRegister_svcStep (L : Nat) (n : Node) (sv : NodeService) (t : StateStore)
    (N0 : List Node) (ht : t.nodes = N0 ++ [normNode L n])
    (hN0 : ∀ m ∈ N0, m.node ≠ n.node)
    (hfind : t.services.find? (fun pr => pr.1 == n.node && pr.2.id == sv.id) = none) :
    (applyRegister t L (svcReq n sv)).2.nodes = t.nodes ∧
    (applyRegister t L (svcReq n sv)).2.services =
      t.services ++ [(n.node, normSvc L sv)] ∧
    (applyRegister t L (svcReq n sv)).2.checks = t.checks ∧
    kvPreserved t (applyRegister t L (svcReq n sv)).2 := by
  have hget := nodesShape_getNode L n N0 t ht hN0
  have hmap := nodesShape_mapId L n N0 t ht hN0
  unfold applyRegister EnsureRegistration svcReq EnsureNode
  dsimp only
  rw [hget]
  dsimp only
  unfold EnsureService GetNode
  dsimp only
  rw [show (List.find? (fun n_1 => n_1.node == n.node)
    (t.nodes.map (fun old => if old.node == n.node then
      { old with address := n.address, modifyIndex := L } else old))) =
      some (normNode L n) from by rw [hmap]; exact hget]
  dsimp only
  rw [hmap, hfind]
  exact ⟨rfl, rfl, rfl, rfl, rfl, rfl, rfl⟩

theorem applyRegister_chkStep (L : Nat) (n : Node) (c : HealthCheck) (t : StateStore)
    (N0 : List Node) (ht : t.nodes = N0 ++ [normNode L n])
    (hN0 : ∀ m ∈ N0, m.node ≠ n.node)
    (hcn : c.node = n.node)
    (hstatus : c.status ≠ "")
    (hsvc : c.serviceID ≠ "" →
      ∃ pr, t.services.find? (fun q => q.1 == c.node && q.2.id == c.serviceID) = some pr ∧
        pr.2.service = c.serviceName)
    (hfind : t.checks.find? (fun old => old.node == c.node && old.checkID == c.checkID) =
      none) :
    (applyRegister t L (chkReq n c)).2.nodes = t.nodes ∧
    (applyRegister t L (chkReq n c)).2.services = t.services ∧
    (applyRegister t L (chkReq n c)).2.checks = t.checks ++ [normChk L c] ∧
    kvPreserved t (applyRegister t L (chkReq n c)).2 := by
  have hget := nodesShape_getNode L n N0 t ht hN0
  have hmap := nodesShape_mapId L n N0 t ht hN0
  have hstatusb : (c.status == "") = false := beq_eq_false_iff_ne.mpr hstatus
  have hgetc : List.find? (fun m => m.node == c.node) t.nodes = some (normNode L n) := by
    rw [hcn]
    exact hget
  unfold applyRegister EnsureRegistration chkReq EnsureNode
  dsimp only
  rw [hget]
  dsimp only
  unfold EnsureCheck GetNode
  dsimp only
  rw [hmap, hgetc]
  dsimp only
  rw [hstatusb]
  by_cases hsid : (c.serviceID == "") = true
  · rw [if_pos hsid]
    dsimp only
    rw [hfind]
    exact ⟨rfl, rfl, rfl, rfl, rfl, rfl, rfl⟩
  · rw [if_neg hsid]
    obtain ⟨pr, hpr, hprsvc⟩ := hsvc (by
      intro hc
      exact hsid (by simp [hc]))
    rw [hpr]
    dsimp only
    rw [hprsvc, hfind]
    exact ⟨rfl, rfl, rfl, rfl, rfl, rfl, rfl⟩

theorem svcFold_components (L : Nat) (n : Node) (N0 : List Node)
    (hN0 : ∀ m ∈ N0, m.node ≠ n.node) :
    ∀ (svs : List NodeService) (t : StateStore),
      t.nodes = N0 ++ [normNode L n] →
      (∀ sv ∈ svs, ∀ pr ∈ t.services, ¬(pr.1 = n.node ∧ pr.2.id = sv.id)) →
      svs.Pairwise (fun a b => a.id ≠ b.id) →
      letI T := (svs.map (fun sv => SnapRecord.register (svcReq n sv))).foldl
        (restoreStep L) t
      T.nodes = t.nodes ∧
      T.services = t.services ++ svs.map (fun sv => (n.node, normSvc L sv)) ∧
      T.checks = t.checks ∧ kvPreserved t T := by
  intro svs
  induction svs with
  | nil => intro t ht hfr hpw; exact ⟨rfl, (List.append_nil _).symm, rfl, kvPreserved_refl t⟩
  | cons sv svs ih =>
    intro t ht hfr hpw
    have hfind : t.services.find? (fun pr => pr.1 == n.node && pr.2.id == sv.id) = none := by
      rw [List.find?_eq_none]
      intro pr hpr
      simp only [Bool.and_eq_true, beq_iff_eq, not_and]
      intro h1 h2
      exact hfr sv (List.mem_cons_self sv svs) pr hpr ⟨h1, h2⟩
    have hstep := applyRegister_svcStep L n sv t N0 ht hN0 hfind
    have hfold : (List.map (fun sv => SnapRecord.register (svcReq n sv))
        (sv :: svs)).foldl (restoreStep L) t =
        (List.map (fun sv => SnapRecord.register (svcReq n sv)) svs).foldl
          (restoreStep L) (applyRegister t L (svcReq n sv)).2 := rfl
    rw [hfold]
    have hfr2 : ∀ z ∈ svs, ∀ pr ∈ (applyRegister t L (svcReq n sv)).2.services,
        ¬(pr.1 = n.node ∧ pr.2.id = z.id) := by
      intro z hz pr hpr
      rw [hstep.2.1] at hpr
      rcases List.mem_append.mp hpr with hpr | hpr
      · exact hfr z (List.mem_cons_of_mem _ hz) pr hpr
      · rcases List.mem_singleton.mp hpr with rfl
        rintro ⟨-, h2⟩
        exact (List.pairwise_cons.mp hpw).1 z hz (by simpa [normSvc] using h2)
    have h := ih (applyRegister t L (svcReq n sv)).2 (hstep.1.trans ht) hfr2
      (List.pairwise_cons.mp hpw).2
    refine ⟨h.1.trans hstep.1, ?_, h.2.2.1.trans hstep.2.2.1,
      kvPreserved_trans hstep.2.2.2 h.2.2.2⟩
    rw [h.2.1, hstep.2.1, List.append_assoc, List.singleton_append, List.map_cons]

theorem chkFold_components (L : Nat) (n : Node) (N0 : List Node)
    (hN0 : ∀ m ∈ N0, m.node ≠ n.node) :
    ∀ (cs : List HealthCheck) (t : StateStore),
      t.nodes = N0 ++ [normNode L n] →
      (∀ c ∈ cs, c.node = n.node) →
      (∀ c ∈ cs, c.status ≠ "") →
      (∀ c ∈ cs, c.serviceID ≠ "" →
        ∃ pr, t.services.find? (fun q => q.1 == c.node && q.2.id == c.serviceID) =
          some pr ∧ pr.2.service = c.serviceName) →
      (∀ c ∈ cs, ∀ old ∈ t.checks, ¬(old.node = c.node ∧ old.checkID = c.checkID)) →
      cs.Pairwise (fun a b => a.checkID ≠ b.checkID) →
      letI T := (cs.map (fun c => SnapRecord.register (chkReq n c))).foldl
        (restoreStep L) t
      T.nodes = t.nodes ∧ T.services = t.services ∧
      T.checks = t.checks ++ cs.map (normChk L) ∧ kvPreserved t T := by
  intro cs
  induction cs with
  | nil => intro t ht _ _ _ _ _; exact ⟨rfl, rfl, (List.append_nil _).symm, kvPreserved_refl t⟩
  | cons c cs ih =>
    intro t ht hnode hstatus hsvc hfr hpw
    have hfind : t.checks.find?
        (fun old => old.node == c.node && old.checkID == c.checkID) = none := by
      rw [List.find?_eq_none]
      intro old hold
      simp only [Bool.and_eq_true, beq_iff_eq, not_and]
      intro h1 h2
      exact hfr c (List.mem_cons_self c cs) old hold ⟨h1, h2⟩
    have hstep := applyRegister_chkStep L n c t N0 ht hN0
      (hnode c (List.mem_cons_self c cs)) (hstatus c (List.mem_cons_self c cs))
      (hsvc c (List.mem_cons_self c cs)) hfind
    have hfold : (List.map (fun c => SnapRecord.register (chkReq n c))
        (c :: cs)).foldl (restoreStep L) t =
        (List.map (fun c => SnapRecord.register (chkReq n c)) cs).foldl
          (restoreStep L) (applyRegister t L (chkReq n c)).2 := rfl
    rw [hfold]
    have hsvc2 : ∀ z ∈ cs, z.serviceID ≠ "" →
        ∃ pr, (applyRegister t L (chkReq n c)).2.services.find?
          (fun q => q.1 == z.node && q.2.id == z.serviceID) = some pr ∧
          pr.2.service = z.serviceName := by
      intro z hz hzs
      rw [hstep.2.1]
      exact hsvc z (List.mem_cons_of_mem _ hz) hzs
    have hfr2 : ∀ z ∈ cs, ∀ old ∈ (applyRegister t L (chkReq n c)).2.checks,
        ¬(old.node = z.node ∧ old.checkID = z.checkID) := by
      intro z hz old hold
      rw [hstep.2.2.1] at hold
      rcases List.mem_append.mp hold with hold | hold
      · exact hfr z (List.mem_cons_of_mem _ hz) old hold
      · rcases List.mem_singleton.mp hold with rfl
        rintro ⟨-, h2⟩
        exact (List.pairwise_cons.mp hpw).1 z hz (by simpa [normChk] using h2)
    have h := ih (applyRegister t L (chkReq n c)).2 (hstep.1.trans ht)
      (fun z hz => hnode z (List.mem_cons_of_mem _ hz))
      (fun z hz => hstatus z (List.mem_cons_of_mem _ hz))
      hsvc2 hfr2 (List.pairwise_cons.mp hpw).2
    refine ⟨h.1.trans hstep.1, h.2.1.trans hstep.2.1, ?_,
      kvPreserved_trans hstep.2.2.2 h.2.2.2⟩
    rw [h.2.2.1, hstep.2.2.1, List.append_assoc, List.singleton_append, List.map_cons]

theorem pairwise_of_filter_imp {α : Type} (p : α → Bool) (R S : α → α → Prop)
    (l : List α) (h : l.Pairwise R)
    (himp : ∀ a b, p a = true → p b = true → R a b → S a b) :
    (l.filter p).Pairwise S := by
  induction l with
  | nil => simp
  | cons x xs ih =>
    rw [List.pairwise_cons] at h
    by_cases hx : p x = true
    · rw [List.filter_cons_of_pos hx, List.pairwise_cons]
      refine ⟨?_, ih h.2⟩
      intro b hb
      exact himp x b hx (List.mem_filter.mp hb).2 (h.1 b (List.mem_filter.mp hb).1)
    · rw [List.filter_cons_of_neg (by simpa using hx)]
      exact ih h.2

theorem pairwise_ne_inj {α β : Type} (f : α → β) :
    ∀ (l : List α), l.Pairwise (fun a b => f a ≠ f b) →
      ∀ a ∈ l, ∀ b ∈ l, f a = f b → a = b := by
  intro l
  induction l with
  | nil => intro _ a ha; cases ha
  | cons x xs ih =>
    intro h a ha b hb hfab
    rw [List.pairwise_cons] at h
    rcases List.mem_cons.mp ha with rfl | ha' <;> rcases List.mem_cons.mp hb with rfl | hb'
    · rfl
    · exact absurd hfab (h.1 b hb')
    · exact absurd hfab.symm (h.1 a ha')
    · exact ih h.2 a ha' b hb' hfab

theorem takeWhile_all {α : Type} (p : α → Bool) :
    ∀ (l : List α), l.all p = true → l.takeWhile p = l := by
  intro l
  induction l with
  | nil => intro _; rfl
  | cons x xs ih =>
    intro h
    rw [List.all_cons, Bool.and_eq_true] at h
    rw [List.takeWhile_cons_of_pos h.1, ih h.2]

theorem find?_map_comm {α β : Type} (f : α → β) (p : β → Bool) (q : α → Bool)
    (h : ∀ a, p (f a) = q a) :
    ∀ (l : List α), (l.map f).find? p = (l.find? q).map f := by
  intro l
  induction l with
  | nil => rfl
  | cons x xs ih =>
    by_cases hq : q x = true
    · rw [List.map_cons, List.find?_cons_of_pos _ (by rw [h x]; exact hq),
        List.find?_cons_of_pos _ hq]
      rfl
    · rw [List.map_cons, List.find?_cons_of_neg _ (by rw [h x]; exact hq),
        List.find?_cons_of_neg _ hq, ih]

/-- Every record Persist emits decodes and carries a recognized type. -/
theorem persist_records_good (s : StateStore) :
    (Persist s).records.all SnapRecord.isGood = true := by
  rw [List.all_eq_true]
  intro r hr
  unfold Persist at hr
  dsimp only at hr
  rcases List.mem_append.mp hr with hr | hr
  · rcases List.mem_append.mp hr with hr | hr
    · rcases List.mem_append.mp hr with hr | hr
      · rcases List.mem_append.mp hr with hr | hr
        · unfold persistNodes at hr
          obtain ⟨n, _, hrn⟩ := List.mem_flatMap.mp hr
          unfold nodeRegRecs at hrn
          rcases List.mem_cons.mp hrn with rfl | hrn
          · rfl
          · rcases List.mem_append.mp hrn with hrn | hrn
            · obtain ⟨sv, _, rfl⟩ := List.mem_map.mp hrn; rfl
            · obtain ⟨c, _, rfl⟩ := List.mem_map.mp hrn; rfl
        · obtain ⟨x, _, rfl⟩ := List.mem_map.mp hr; rfl
      · obtain ⟨a, _, rfl⟩ := List.mem_map.mp hr; rfl
    · obtain ⟨e, _, rfl⟩ := List.mem_map.mp hr; rfl
  · obtain ⟨tb, _, rfl⟩ := List.mem_map.mp hr; rfl

/-- The store after the node-only register record of a group. -/
def withNode (L : Nat) (n : Node) (t : StateStore) : StateStore :=
  { t with nodes := t.nodes ++ [normNode L n], index.nodes := L }

/-- One node's register-record group, re-applied onto an accumulator in
which the node and everything on it are still fresh: the node is
appended with both indexes at LastIndex, its services and checks are
appended normalized, and the non-catalog tables are untouched. -/
theorem nodeGroup_components (L : Nat) (s : StateStore) (n : Node) (t : StateStore)
    (hwf : WF s)
    (hfreshN : ∀ m ∈ t.nodes, m.node ≠ n.node)
    (hfreshS : ∀ pr ∈ t.services, pr.1 ≠ n.node)
    (hfreshC : ∀ c ∈ t.checks, c.node ≠ n.node) :
    letI T := (nodeRegRecs s n).foldl (restoreStep L) t
    T.nodes = t.nodes ++ [normNode L n] ∧
    T.services = t.services ++
      (nodeServiceEntries n.node s).map (fun sv => (n.node, normSvc L sv)) ∧
    T.checks = t.checks ++
      (s.checks.filter (fun c => c.node == n.node)).map (normChk L) ∧
    kvPreserved t T := by
  have hget : GetNode n.node t = none := by
    unfold GetNode
    rw [List.find?_eq_none]
    intro m hm
    simp only [beq_iff_eq]
    exact hfreshN m hm
  have h1 : (applyRegister t L (nodeOnlyReq n)).2 = withNode L n t :=
    applyRegister_nodeOnly L n t hget
  have hsvcpw : (nodeServiceEntries n.node s).Pairwise (fun a b => a.id ≠ b.id) := by
    unfold nodeServiceEntries
    rw [List.pairwise_map]
    refine pairwise_of_filter_imp (fun pr => pr.1 == n.node) _ _ s.services hwf.2.1 ?_
    intro a b ha hb hR
    simp only [beq_iff_eq] at ha hb
    intro hid
    exact hR ⟨ha.trans hb.symm, hid⟩
  have hchkpw : (s.checks.filter (fun c => c.node == n.node)).Pairwise
      (fun a b => a.checkID ≠ b.checkID) := by
    refine pairwise_of_filter_imp (fun c => c.node == n.node) _ _ s.checks hwf.2.2.1 ?_
    intro a b ha hb hR
    simp only [beq_iff_eq] at ha hb
    intro hid
    exact hR ⟨ha.trans hb.symm, hid⟩
  have hfrS1 : ∀ sv ∈ nodeServiceEntries n.node s, ∀ pr ∈ (withNode L n t).services,
      ¬(pr.1 = n.node ∧ pr.2.id = sv.id) := by
    intro sv _ pr hpr hcon
    exact hfreshS pr hpr hcon.1
  have hS := svcFold_components L n t.nodes hfreshN (nodeServiceEntries n.node s)
    (withNode L n t) rfl hfrS1 hsvcpw
  have hfold : (nodeRegRecs s n).foldl (restoreStep L) t =
      ((s.checks.filter (fun c => c.node == n.node)).map
          (fun c => SnapRecord.register (chkReq n c))).foldl (restoreStep L)
        (((nodeServiceEntries n.node s).map
            (fun sv => SnapRecord.register (svcReq n sv))).foldl (restoreStep L)
          ((applyRegister t L (nodeOnlyReq n)).2)) := by
    unfold nodeRegRecs
    rw [List.foldl_cons, List.foldl_append]
    rfl
  rw [hfold, h1]
  set T2 := ((nodeServiceEntries n.node s).map
      (fun sv => SnapRecord.register (svcReq n sv))).foldl (restoreStep L)
    (withNode L n t) with hT2
  have hT2svcs : T2.services = t.services ++
      (nodeServiceEntries n.node s).map (fun sv => (n.node, normSvc L sv)) := hS.2.1
  have hT2chks : T2.checks = t.checks := hS.2.2.1
  have hnode : ∀ c ∈ s.checks.filter (fun c => c.node == n.node), c.node = n.node := by
    intro c hc
    exact beq_iff_eq.mp (List.mem_filter.mp hc).2
  have hstatus : ∀ c ∈ s.checks.filter (fun c => c.node == n.node), c.status ≠ "" := by
    intro c hc
    exact hwf.2.2.2.2.2.2.2.2.1 c (List.mem_filter.mp hc).1
  have hsvcfind : ∀ c ∈ s.checks.filter (fun c => c.node == n.node), c.serviceID ≠ "" →
      ∃ pr, T2.services.find? (fun q => q.1 == c.node && q.2.id == c.serviceID) =
        some pr ∧ pr.2.service = c.serviceName := by
    intro c hc hcs
    have hcn : c.node = n.node := hnode c hc
    obtain ⟨pr0, hpr0mem, hpr0n, hpr0id, hpr0name⟩ :=
      hwf.2.2.2.2.2.2.2.2.2 c (List.mem_filter.mp hc).1 hcs
    have hpre : t.services.find? (fun q => q.1 == c.node && q.2.id == c.serviceID) =
        none := by
      rw [List.find?_eq_none]
      intro q hq
      simp only [Bool.and_eq_true, beq_iff_eq, not_and]
      intro hq1 _
      exact hfreshS q hq (hq1.trans hcn)
    have hmem : pr0.2 ∈ nodeServiceEntries n.node s := by
      unfold nodeServiceEntries
      exact List.mem_map_of_mem _
        (List.mem_filter.mpr ⟨hpr0mem, by simp [hpr0n, hcn]⟩)
    have hmapmem : ((n.node, normSvc L pr0.2) : String × NodeService) ∈
        (nodeServiceEntries n.node s).map (fun sv => (n.node, normSvc L sv)) :=
      List.mem_map_of_mem _ hmem
    have hsat : ((fun q => q.1 == c.node && q.2.id == c.serviceID)
        ((n.node, normSvc L pr0.2) : String × NodeService)) = true := by
      simp [normSvc, hcn, hpr0id]
    have hisSome : (((nodeServiceEntries n.node s).map
        (fun sv => (n.node, normSvc L sv))).find?
          (fun q => q.1 == c.node && q.2.id == c.serviceID)).isSome = true := by
      rw [List.find?_isSome]
      exact ⟨_, hmapmem, hsat⟩
    cases hfq : ((nodeServiceEntries n.node s).map
        (fun sv => (n.node, normSvc L sv))).find?
          (fun q => q.1 == c.node && q.2.id == c.serviceID) with
    | none => rw [hfq] at hisSome; simp at hisSome
    | some q =>
      have hqmem := List.mem_of_find?_eq_some hfq
      have hqsat := List.find?_some hfq
      obtain ⟨sv', hsv'mem, hsv'eq⟩ := List.mem_map.mp hqmem
      have hqid : q.2.id = c.serviceID := by
        simp only [Bool.and_eq_true, beq_iff_eq] at hqsat
        exact hqsat.2
      have hid : sv'.id = pr0.2.id := by
        rw [← hsv'eq] at hqid
        have : sv'.id = c.serviceID := by simpa [normSvc] using hqid
        exact this.trans hpr0id.symm
      have hsveq : sv' = pr0.2 :=
        pairwise_ne_inj (fun sv => sv.id) _ hsvcpw sv' hsv'mem pr0.2 hmem hid
      refine ⟨q, ?_, ?_⟩
      · rw [hT2svcs, List.find?_append, hpre]
        simpa using hfq
      · rw [← hsv'eq]
        show (normSvc L sv').service = c.serviceName
        rw [hsveq]
        simpa [normSvc] using hpr0name.symm
  have hfrC : ∀ c ∈ s.checks.filter (fun c => c.node == n.node), ∀ old ∈ T2.checks,
      ¬(old.node = c.node ∧ old.checkID = c.checkID) := by
    intro c hc old hold hcon
    rw [hT2chks] at hold
    exact hfreshC old hold (hcon.1.trans (hnode c hc))
  have hC := chkFold_components L n t.nodes hfreshN
    (s.checks.filter (fun c => c.node == n.node)) T2
    (hS.1 : T2.nodes = t.nodes ++ [normNode L n]) hnode hstatus hsvcfind hfrC hchkpw
  refine ⟨hC.1.trans (hS.1 : T2.nodes = t.nodes ++ [normNode L n]), ?_, ?_, ?_⟩
  · exact hC.2.1.trans hT2svcs
  · rw [hC.2.2.1, hT2chks]
  · exact kvPreserved_trans (⟨rfl, rfl, rfl, rfl⟩ : kvPreserved t (withNode L n t))
      (kvPreserved_trans hS.2.2.2 hC.2.2.2)

/-- The whole register stage of a restore: re-applying every node's
record group rebuilds the catalog with all indexes rewritten to the
header's LastIndex and leaves the non-catalog tables alone. -/
theorem regFold_components (L : Nat) (s : StateStore) (hwf : WF s) :
    ∀ (ns : List Node) (t : StateStore),
      ns.Pairwise (fun a b => a.node ≠ b.node) →
      (∀ n ∈ ns, ∀ m ∈ t.nodes, m.node ≠ n.node) →
      (∀ n ∈ ns, ∀ pr ∈ t.services, pr.1 ≠ n.node) →
      (∀ n ∈ ns, ∀ c ∈ t.checks, c.node ≠ n.node) →
      letI T := (ns.flatMap (nodeRegRecs s)).foldl (restoreStep L) t
      T.nodes = t.nodes ++ ns.map (normNode L) ∧
      T.services = t.services ++ ns.flatMap (fun n =>
        (nodeServiceEntries n.node s).map (fun sv => (n.node, normSvc L sv))) ∧
      T.checks = t.checks ++ ns.flatMap (fun n =>
        (s.checks.filter (fun c => c.node == n.node)).map (normChk L)) ∧
      kvPreserved t T := by
  intro ns
  induction ns with
  | nil =>
    intro t _ _ _ _
    exact ⟨(List.append_nil _).symm, (List.append_nil _).symm,
      (List.append_nil _).symm, kvPreserved_refl t⟩
  | cons n ns ih =>
    intro t hpw hfN hfS hfC
    have hG := nodeGroup_components L s n t hwf
      (hfN n (List.mem_cons_self n ns)) (hfS n (List.mem_cons_self n ns))
      (hfC n (List.mem_cons_self n ns))
    have hfold : ((n :: ns).flatMap (nodeRegRecs s)).foldl (restoreStep L) t =
        (ns.flatMap (nodeRegRecs s)).foldl (restoreStep L)
          ((nodeRegRecs s n).foldl (restoreStep L) t) := by
      rw [List.flatMap_cons, List.foldl_append]
    rw [hfold]
    set t1 := (nodeRegRecs s n).foldl (restoreStep L) t with ht1
    have hfN1 : ∀ z ∈ ns, ∀ m ∈ t1.nodes, m.node ≠ z.node := by
      intro z hz m hm
      rw [hG.1] at hm
      rcases List.mem_append.mp hm with hm | hm
      · exact hfN z (List.mem_cons_of_mem _ hz) m hm
      · rcases List.mem_singleton.mp hm with rfl
        have := (List.pairwise_cons.mp hpw).1 z hz
        simpa [normNode] using this
    have hfS1 : ∀ z ∈ ns, ∀ pr ∈ t1.services, pr.1 ≠ z.node := by
      intro z hz pr hpr
      rw [hG.2.1] at hpr
      rcases List.mem_append.mp hpr with hpr | hpr
      · exact hfS z (List.mem_cons_of_mem _ hz) pr hpr
      · obtain ⟨sv, _, rfl⟩ := List.mem_map.mp hpr
        exact (List.pairwise_cons.mp hpw).1 z hz
    have hfC1 : ∀ z ∈ ns, ∀ c ∈ t1.checks, c.node ≠ z.node := by
      intro z hz c hc
      rw [hG.2.2.1] at hc
      rcases List.mem_append.mp hc with hc | hc
      · exact hfC z (List.mem_cons_of_mem _ hz) c hc
      · obtain ⟨c0, hc0, rfl⟩ := List.mem_map.mp hc
        have hc0n : c0.node = n.node := beq_iff_eq.mp (List.mem_filter.mp hc0).2
        have := (List.pairwise_cons.mp hpw).1 z hz
        simpa [normChk, hc0n] using this
    have h := ih t1 (List.pairwise_cons.mp hpw).2 hfN1 hfS1 hfC1
    refine ⟨?_, ?_, ?_, kvPreserved_trans hG.2.2.2 h.2.2.2⟩
    · rw [h.1, hG.1, List.append_assoc, List.singleton_append, List.map_cons]
    · rw [h.2.1, hG.2.1, List.append_assoc, List.flatMap_cons]
    · rw [h.2.2.1, hG.2.2.1, List.append_assoc, List.flatMap_cons]

/-- Restoring a persisted snapshot of a well-formed store: no error, the
non-catalog tables come back identical, and the catalog tables come back
normalized to the header's LastIndex (grouped by node for services and
checks). -/
theorem restore_persist_components (fsm : FSM) (s : StateStore) (hwf : WF s) :
    (Restore fsm (Persist s)).1 = none ∧
    (Restore fsm (Persist s)).2.state.nodes = s.nodes.map (normNode (LastIndex s)) ∧
    (Restore fsm (Persist s)).2.state.services = s.nodes.flatMap (fun n =>
      (nodeServiceEntries n.node s).map
        (fun sv => (n.node, normSvc (LastIndex s) sv))) ∧
    (Restore fsm (Persist s)).2.state.checks = s.nodes.flatMap (fun n =>
      (s.checks.filter (fun c => c.node == n.node)).map (normChk (LastIndex s))) ∧
    (Restore fsm (Persist s)).2.state.kvs = s.kvs ∧
    (Restore fsm (Persist s)).2.state.tombstones = s.tombstones ∧
    (Restore fsm (Persist s)).2.state.sessions = s.sessions ∧
    (Restore fsm (Persist s)).2.state.acls = s.acls := by
  have hgood := persist_records_good s
  have hspec := restoreLoop_spec (LastIndex s) (Persist s).records emptyStore
  rcases hr : restoreLoop (LastIndex s) emptyStore (Persist s).records with ⟨e0, s0⟩
  rw [hr] at hspec
  have herr : e0 = none := hspec.1.mpr hgood
  have hs0 : s0 = (Persist s).records.foldl (restoreStep (LastIndex s)) emptyStore := by
    have := hspec.2
    rwa [takeWhile_all _ _ hgood] at this
  have hR : Restore fsm (Persist s) = (e0, { state := s0 }) := by
    have hh : (Persist s).header = some (LastIndex s) := rfl
    unfold Restore
    rw [hh]
    dsimp only
    rw [hr]
  have hrec : (Persist s).records = persistNodes s ++
      s.sessions.map (fun x => SnapRecord.session x) ++
      s.acls.map (fun a => SnapRecord.acl a) ++
      s.kvs.map (fun e => SnapRecord.kv e) ++
      s.tombstones.map (fun tb => SnapRecord.tombstone (tombFake tb)) := rfl
  rw [hrec, List.foldl_append, List.foldl_append, List.foldl_append,
    List.foldl_append] at hs0
  have hreg := regFold_components (LastIndex s) s hwf s.nodes emptyStore hwf.1
    (by intro n hn m hm; simp [emptyStore] at hm)
    (by intro n hn pr hpr; simp [emptyStore] at hpr)
    (by intro n hn c hc; simp [emptyStore] at hc)
  set T1 := (persistNodes s).foldl (restoreStep (LastIndex s)) emptyStore with hT1
  rw [show s.nodes.flatMap (nodeRegRecs s) = persistNodes s from rfl] at hreg
  have hsess := sessionFold_spec (LastIndex s) s.sessions T1
    (by intro x hx y hy
        rw [(hreg.2.2.2.2.2.1 : T1.sessions = ([] : List Session))] at hy
        simp [emptyStore] at hy)
    hwf.2.2.2.2.1
  set T2 := (s.sessions.map (fun x => SnapRecord.session x)).foldl
    (restoreStep (LastIndex s)) T1 with hT2
  have hacl := aclFold_spec (LastIndex s) s.acls T2
    (by intro x hx y hy
        rw [(hsess.2.2.2.2.2.2 : T2.acls = T1.acls),
          (hreg.2.2.2.2.2.2 : T1.acls = ([] : List ACL))] at hy
        simp [emptyStore] at hy)
    hwf.2.2.2.2.2.1
  set T3 := (s.acls.map (fun a => SnapRecord.acl a)).foldl
    (restoreStep (LastIndex s)) T2 with hT3
  have hkv := kvFold_spec (LastIndex s) s.kvs T3
    (by intro x hx y hy
        rw [(hacl.2.2.2.2.1 : T3.kvs = T2.kvs),
          (hsess.2.2.2.2.1 : T2.kvs = T1.kvs),
          (hreg.2.2.2.1 : T1.kvs = ([] : List DirEntry))] at hy
        simp [emptyStore] at hy)
    hwf.2.2.2.1
  set T4 := (s.kvs.map (fun e => SnapRecord.kv e)).foldl
    (restoreStep (LastIndex s)) T3 with hT4
  have htomb := tombFold_spec (LastIndex s) s.tombstones T4
  set T5 := (s.tombstones.map (fun tb => SnapRecord.tombstone (tombFake tb))).foldl
    (restoreStep (LastIndex s)) T4 with hT5
  have hnodes : T5.nodes = s.nodes.map (normNode (LastIndex s)) := by
    rw [htomb.2.1, hkv.2.1, hacl.2.1, hsess.2.1,
      (hreg.1 : T1.nodes = emptyStore.nodes ++ s.nodes.map (normNode (LastIndex s)))]
    rfl
  have hsvcs : T5.services = s.nodes.flatMap (fun n =>
      (nodeServiceEntries n.node s).map
        (fun sv => (n.node, normSvc (LastIndex s) sv))) := by
    rw [htomb.2.2.1, hkv.2.2.1, hacl.2.2.1, hsess.2.2.1, hreg.2.1]
    rfl
  have hchks : T5.checks = s.nodes.flatMap (fun n =>
      (s.checks.filter (fun c => c.node == n.node)).map
        (normChk (LastIndex s))) := by
    rw [htomb.2.2.2.1, hkv.2.2.2.1, hacl.2.2.2.1, hsess.2.2.2.1, hreg.2.2.1]
    rfl
  have hkvs : T5.kvs = s.kvs := by
    rw [htomb.2.2.2.2.2.1, hkv.1, (hacl.2.2.2.2.1 : T3.kvs = T2.kvs),
      (hsess.2.2.2.2.1 : T2.kvs = T1.kvs),
      (hreg.2.2.2.1 : T1.kvs = ([] : List DirEntry))]
    rfl
  have htombs : T5.tombstones = s.tombstones := by
    rw [htomb.1, (hkv.2.2.2.2.2.1 : T4.tombstones = T3.tombstones),
      (hacl.2.2.2.2.2.1 : T3.tombstones = T2.tombstones),
      (hsess.2.2.2.2.2.1 : T2.tombstones = T1.tombstones),
      (hreg.2.2.2.2.1 : T1.tombstones = ([] : List Tombstone))]
    rfl
  have hsesss : T5.sessions = s.sessions := by
    rw [htomb.2.2.2.2.1, (hkv.2.2.2.2.1 : T4.sessions = T3.sessions),
      (hacl.2.2.2.2.2.2 : T3.sessions = T2.sessions), hsess.1,
      (hreg.2.2.2.2.2.1 : T1.sessions = ([] : List Session))]
    rfl
  have hacls : T5.acls = s.acls := by
    rw [htomb.2.2.2.2.2.2, (hkv.2.2.2.2.2.2 : T4.acls = T3.acls), hacl.1,
      (hsess.2.2.2.2.2.2 : T2.acls = T1.acls),
      (hreg.2.2.2.2.2.2 : T1.acls = ([] : List ACL))]
    rfl
  rw [hR, herr]
  rw [← hs0] at hnodes hsvcs hchks hkvs htombs hsesss hacls
  exact ⟨rfl, hnodes, hsvcs, hchks, hkvs, htombs, hsesss, hacls⟩

/-- C1 (amended): restoring a persisted snapshot of a well-formed store
into a fresh FSM succeeds, and the K/V, session and ACL reads — KVSGet,
KVSList with its result index (tombstone contributions included),
SessionGet's session, ACLGet — return exactly the original results; the
catalog reads (Nodes, NodeServices, NodeChecks) return the original rows
but with every CreateIndex and ModifyIndex rewritten to the snapshot
header's LastIndex, because Restore re-applies catalog records through
EnsureRegistration at LastIndex (fsm.go lines 288–295), so catalog
results agree only modulo that index rewrite — they are not identical,
and the catalog result indexes are not preserved. -/
theorem snapshot_restore_semantics (fsm : FSM) (s : StateStore) (hwf : WF s) :
    (Restore fsm (Persist s)).1 = none ∧
    (∀ k, KVSGet k (Restore fsm (Persist s)).2.state = KVSGet k s) ∧
    (∀ p, KVSList p (Restore fsm (Persist s)).2.state = KVSList p s) ∧
    (∀ i, GetSession i (Restore fsm (Persist s)).2.state = GetSession i s) ∧
    (∀ i, ACLGet i (Restore fsm (Persist s)).2.state = ACLGet i s) ∧
    (Nodes (Restore fsm (Persist s)).2.state).2 =
      (Nodes s).2.map (normNode (LastIndex s)) ∧
    (∀ nm, GetNode nm (Restore fsm (Persist s)).2.state =
      (GetNode nm s).map (normNode (LastIndex s))) ∧
    (∀ nm, (NodeServices nm (Restore fsm (Persist s)).2.state).2 =
      ((NodeServices nm s).2).map (fun pr =>
        (normNode (LastIndex s) pr.1, pr.2.map (normSvc (LastIndex s))))) ∧
    (∀ nm, (NodeChecks nm (Restore fsm (Persist s)).2.state).2 =
      ((NodeChecks nm s).2).map (normChk (LastIndex s))) := by
  obtain ⟨herr, hnodes, hsvcs, hchks, hkvs, htombs, hsesss, hacls⟩ :=
    restore_persist_components fsm s hwf
  have hGetNode : ∀ nm, GetNode nm (Restore fsm (Persist s)).2.state =
      (GetNode nm s).map (normNode (LastIndex s)) := by
    intro nm
    unfold GetNode
    rw [hnodes]
    exact find?_map_comm (normNode (LastIndex s)) (fun n => n.node == nm)
      (fun n => n.node == nm) (fun a => rfl) s.nodes
  have hsvcEq : ∀ nm, nodeServiceEntries nm (Restore fsm (Persist s)).2.state =
      (nodeServiceEntries nm s).map (normSvc (LastIndex s)) := by
    intro nm
    have hL : nodeServiceEntries nm (Restore fsm (Persist s)).2.state =
        ((Restore fsm (Persist s)).2.state.services.filter
          (fun pr => pr.1 == nm)).map (fun pr => pr.2) := rfl
    have hgrp := filter_flatMap_group (fun pr : String × NodeService => pr.1)
      (fun n => (nodeServiceEntries n.node s).map
        (fun sv => (n.node, normSvc (LastIndex s) sv)))
      (fun n => n.node) s.nodes hwf.1
      (by intro a _ b hb
          obtain ⟨sv, _, rfl⟩ := List.mem_map.mp hb
          rfl) nm
    rw [hL, hsvcs, hgrp]
    cases hfind : s.nodes.find? (fun a => a.node == nm) with
    | none =>
      dsimp only
      have hnil : s.services.filter (fun pr => pr.1 == nm) = [] := by
        rw [List.filter_eq_nil_iff]
        intro pr hpr hprnm
        obtain ⟨n1, hn1, hn1e⟩ := hwf.2.2.2.2.2.2.1 pr hpr
        rw [List.find?_eq_none] at hfind
        exact hfind n1 hn1 (by simp [hn1e, beq_iff_eq.mp hprnm])
      have hrhs : nodeServiceEntries nm s = [] := by
        unfold nodeServiceEntries
        rw [hnil]
        rfl
      rw [hrhs]
      rfl
    | some n0 =>
      dsimp only
      have hn0 : n0.node = nm := by
        have := List.find?_some hfind
        simpa using this
      rw [hn0, List.map_map]
      rfl
  have hchkEq : ∀ nm, (NodeChecks nm (Restore fsm (Persist s)).2.state).2 =
      ((NodeChecks nm s).2).map (normChk (LastIndex s)) := by
    intro nm
    have hL : (NodeChecks nm (Restore fsm (Persist s)).2.state).2 =
        (Restore fsm (Persist s)).2.state.checks.filter (fun c => c.node == nm) := rfl
    have hgrp := filter_flatMap_group (fun c : HealthCheck => c.node)
      (fun n => (s.checks.filter (fun c => c.node == n.node)).map
        (normChk (LastIndex s)))
      (fun n => n.node) s.nodes hwf.1
      (by intro a _ b hb
          obtain ⟨c0, hc0, rfl⟩ := List.mem_map.mp hb
          have := (List.mem_filter.mp hc0).2
          simpa [normChk] using this) nm
    rw [hL, hchks, hgrp]
    cases hfind : s.nodes.find? (fun a => a.node == nm) with
    | none =>
      dsimp only
      have hnil : s.checks.filter (fun c => c.node == nm) = [] := by
        rw [List.filter_eq_nil_iff]
        intro c hc hcnm
        obtain ⟨n1, hn1, hn1e⟩ := hwf.2.2.2.2.2.2.2.1 c hc
        rw [List.find?_eq_none] at hfind
        exact hfind n1 hn1 (by simp [hn1e, beq_iff_eq.mp hcnm])
      have hrhs : (NodeChecks nm s).2 = ([] : List HealthCheck) := hnil
      rw [hrhs]
      rfl
    | some n0 =>
      dsimp only
      have hn0 : n0.node = nm := by
        have := List.find?_some hfind
        simpa using this
      rw [hn0]
      rfl
  refine ⟨herr, ?_, ?_, ?_, ?_, hnodes, hGetNode, ?_, hchkEq⟩
  · intro k
    unfold KVSGet
    rw [hkvs]
  · intro p
    unfold KVSList kvsLiveMax kvsTombMax
    rw [hkvs, htombs]
  · intro i
    unfold GetSession
    rw [hsesss]
  · intro i
    unfold ACLGet
    rw [hacls]
  · intro nm
    unfold NodeServices
    rw [hGetNode nm]
    cases hg : GetNode nm s with
    | none => rfl
    | some n0 =>
      dsimp only [Option.map_some']
      rw [hsvcEq nm]

/-- A well-formed store exercising every table, used to witness the
snapshot/restore round trip: one node with a service and its check, a
K/V entry, a tombstone, a session and an ACL; LastIndex is 8. -/
def sSnapWit : StateStore :=
  { nodes := [⟨"foo", "1.1.1.1", 1, 1⟩],
    services := [("foo", ⟨"web", "web", [], "", 80, 2, 2⟩)],
    checks := [⟨"foo", "web-chk", "web check", "passing", "", "", "web", "web", 3, 3⟩],
    kvs := [⟨"/k", "v", 0, 0, "", 4, 4⟩],
    tombstones := [⟨"/gone", 5⟩],
    sessions := [⟨"sess1", "foo", [], "release", 6, 6⟩],
    sessionChecks := [],
    acls := [⟨"acl1", "rule", "client", "", 7, 7⟩],
    index := { nodes := 1, services := 2, checks := 3, kvs := 8, tombstones := 5,
               sessions := 6, acls := 7 } }

/-- Counterexample to C1 as stated: a store holding node "foo" registered
at index 1 and a K/V entry written at index 12 persists and restores
without error, yet Nodes does NOT return the same results — the restored
node carries CreateIndex/ModifyIndex 12 (the header's LastIndex) instead
of 1, because Restore re-registers catalog entries at LastIndex. -/
theorem snapshot_restore_counterexample :
    (Restore { state := emptyStore }
        (Persist (KVSSet 12 ⟨"/k", "v", 0, 0, "", 0, 0⟩
          (EnsureNode 1 ⟨"foo", "1.1.1.1", 0, 0⟩ emptyStore)))).1 = none ∧
    (Nodes (Restore { state := emptyStore }
        (Persist (KVSSet 12 ⟨"/k", "v", 0, 0, "", 0, 0⟩
          (EnsureNode 1 ⟨"foo", "1.1.1.1", 0, 0⟩ emptyStore)))).2.state).2 =
      [⟨"foo", "1.1.1.1", 12, 12⟩] ∧
    (Nodes (KVSSet 12 ⟨"/k", "v", 0, 0, "", 0, 0⟩
        (EnsureNode 1 ⟨"foo", "1.1.1.1", 0, 0⟩ emptyStore))).2 =
      [⟨"foo", "1.1.1.1", 1, 1⟩] ∧
    (Nodes (Restore { state := emptyStore }
        (Persist (KVSSet 12 ⟨"/k", "v", 0, 0, "", 0, 0⟩
          (EnsureNode 1 ⟨"foo", "1.1.1.1", 0, 0⟩ emptyStore)))).2.state).2 ≠
      (Nodes (KVSSet 12 ⟨"/k", "v", 0, 0, "", 0, 0⟩
        (EnsureNode 1 ⟨"foo", "1.1.1.1", 0, 0⟩ emptyStore))).2 := by
  exact ⟨rfl, rfl, rfl, by decide⟩

/-- Witness for C1: the round-trip theorem applied to the concrete
well-formed store sSnapWit. -/
theorem snapshot_restore_semantics_witness :
    WF sSnapWit ∧
    ((Restore { state := emptyStore } (Persist sSnapWit)).1 = none ∧
     KVSList "/" (Restore { state := emptyStore } (Persist sSnapWit)).2.state =
       KVSList "/" sSnapWit) :=
  ⟨by decide,
   (snapshot_restore_semantics { state := emptyStore } sSnapWit (by decide)).1,
   (snapshot_restore_semantics { state := emptyStore } sSnapWit (by decide)).2.2.1 "/"⟩

end Consul
